import Mathlib

/-!
Verification development for the carsensor scraping worker
(`worker/app/scraper/{parser,translator,selector,sitemaps,client}.py` and
`worker/app/worker.py`).

The Python code is shallowly embedded: strings are Lean `String`s processed
as `List Char`, Python `int` is `ℤ` (`Nat` where clearly non-negative),
Python `float` arithmetic on the short decimal numerals handled here is
modelled as exact rational arithmetic with Python's `round` (round half to
even, returning an integer), `datetime` values are integers on a common
timeline, and `None` is `Option.none`.  Python regular-expression searches
used by the code are embedded as explicit scanning functions whose
behaviour on the relevant pattern shapes matches `re.search` / `re.sub`
semantics (leftmost match, greedy quantifiers, non-overlapping
substitution).  Python `\s` is modelled over the whitespace characters that
occur in the pipeline's data, `\d` (and `int()` digit parsing) over the
ASCII digits, and `str.upper()` / `str.lower()` over the ASCII letters —
the repertoire the scraped source feeds these code paths.
-/

namespace CarResearch

/-- Characters treated as whitespace, modelling Python `\s` (and
`str.strip`) over the character repertoire relevant to the scraped data:
ASCII whitespace plus the no-break space that the source replaces
explicitly. -/
def pySpaceChars : List Char := [' ', '\t', '\n', '\r', '\x0b', '\x0c', ' ']

def isPySpace (c : Char) : Bool := pySpaceChars.contains c

/-- `needle` occurs as a leading segment of `hay` (helper for substring
containment). -/
def leadMatch : List Char → List Char → Bool
  | [], _ => true
  | _ :: _, [] => false
  | a :: as, b :: bs => a = b && leadMatch as bs

def containsSubAux (needle : List Char) : List Char → Bool
  | [] => leadMatch needle []
  | c :: rest => leadMatch needle (c :: rest) || containsSubAux needle rest

/-- Python `needle in hay` on strings. -/
def containsSub (hay needle : String) : Bool := containsSubAux needle.toList hay.toList

/-- Collapse runs of whitespace to a single ASCII space, modelling
`re.sub(r"\s+", " ", ·)` (the flag records whether the previous character
was part of a whitespace run). -/
def collapseWsAux : Bool → List Char → List Char
  | _, [] => []
  | prevSpace, c :: rest =>
    if isPySpace c then
      if prevSpace then collapseWsAux true rest
      else ' ' :: collapseWsAux true rest
    else c :: collapseWsAux false rest

/-- Python `str.strip()`. -/
def pyStrip (l : List Char) : List Char :=
  ((l.dropWhile isPySpace).reverse.dropWhile isPySpace).reverse

/-- `parser._clean_text`: replace no-break spaces, collapse whitespace,
strip, and map the empty result to `None`. -/
def cleanText : Option String → Option String
  | none => none
  | some s =>
    let t := String.mk (pyStrip (collapseWsAux false s.toList))
    if t = "" then none else some t

def digitsToNat (l : List Char) : ℕ :=
  l.foldl (fun a c => a * 10 + (c.toNat - '0'.toNat)) 0

/-- `parser._to_int_digits`: concatenate every digit of the string and read
the result as an integer; `None` when the input is falsy or has no digit. -/
def toIntDigits : Option String → Option ℤ
  | none => none
  | some s =>
    if s = "" then none
    else
      let ds := s.toList.filter Char.isDigit
      if ds = [] then none else some (digitsToNat ds : ℤ)

/-- Python's built-in `round` on an exact rational: round half to even,
returning an integer. -/
def bankerRound (q : ℚ) : ℤ :=
  let f := ⌊q⌋
  let r := q - (f : ℚ)
  if r < 1 / 2 then f
  else if 1 / 2 < r then f + 1
  else if f % 2 = 0 then f else f + 1

/-- Remove every occurrence of the characters `cs` (Python chained
`str.replace(c, "")`). -/
def removeChars (cs : List Char) (l : List Char) : List Char :=
  l.filter (fun c => !cs.contains c)

def replaceChar (a b : Char) (l : List Char) : List Char :=
  l.map (fun c => if c = a then b else c)

/-- Python `str.upper()` over the ASCII letters (identity elsewhere, which
matches the characters this pipeline feeds it). -/
def pyUpper (s : String) : String := String.mk (s.toList.map Char.toUpper)

/-- Association-list lookup (Python `dict.get`; first binding wins, and
every map below keeps its keys unique). -/
def alookup {α : Type} : List (String × α) → String → Option α
  | [], _ => none
  | (k, v) :: rest, u => if k = u then some v else alookup rest u

/-- Replace the value stored under the first occurrence of an existing
key (Python `dict` assignment on a present key). -/
def areplace {α : Type} : List (String × α) → String → α → List (String × α)
  | [], _, _ => []
  | (k, v) :: rest, u, c =>
    if k = u then (k, c) :: rest else (k, v) :: areplace rest u c

end CarResearch

namespace CarResearch.Parse

/-- `parser.UNAVAILABLE_MARKERS`. -/
def UNAVAILABLE_MARKERS : List String :=
  ["掲載終了", "この車両は", "この車両の掲載は終了しました", "販売終了", "成約済み",
   "Listing appears unavailable"]

def YEAR_LABEL : String := "年式"
def COLOR_LABEL : String := "色"
def MILEAGE_LABEL : String := "走行距離"
def REGION_LABEL : String := "地域"
def SHOP_LABEL : String := "販売店"
def ADDRESS_LABEL : String := "住所"
def PHONE_LABEL : String := "電話番号"
def TRANSMISSION_LABEL : String := "ミッション"
def DRIVE_LABEL : String := "駆動方式"
def ENGINE_CC_LABEL : String := "排気量"
def FUEL_LABEL : String := "燃料"
def STEERING_LABEL : String := "ハンドル"
def BODY_TYPE_LABEL : String := "ボディタイプ"

def MANYEN_MULTIPLIER : ℤ := 10000

def PRICE_NOT_SPECIFIED_JPY_THRESHOLD : ℤ := 90000000

def INVALID_PRICE_JPY_VALUES : List ℤ := [99999999, 999999999]

/-- `parser.PRICE_NOT_SPECIFIED_MARKERS`. -/
def PRICE_NOT_SPECIFIED_MARKERS : List String :=
  ["応談", "価格応談", "要相談", "要問合せ", "ASK", "TBD"]

/-- `parser._sanitize_price_jpy`: drop non-positive values, sentinel values
and values at or above the "price not specified" ceiling. -/
def sanitize_price_jpy : Option ℤ → Option ℤ
  | none => none
  | some v =>
    if v ≤ 0 then none
    else if INVALID_PRICE_JPY_VALUES.contains v then none
    else if PRICE_NOT_SPECIFIED_JPY_THRESHOLD ≤ v then none
    else some v

/-- The exact rational denoted by a decimal numeral with integer digits
`intPart` and fractional digits `frac` (Python `float(...)` on the captured
group, modelled exactly). -/
def decimalToRat (intPart frac : List Char) : ℚ :=
  (digitsToNat intPart : ℚ) + (digitsToNat frac : ℚ) / ((10 : ℚ) ^ frac.length)

/-- Try to match `parser.PRICE_MANYEN_RE` = `(\d+(?:\.\d+)?)\s*万` at the
head of the character list, returning the captured number.  Greedy
matching with no surviving backtrack alternatives is exactly what the
Python engine does on this pattern (any backtrack leaves a digit or a dot
where `\s*万` must match). -/
def matchManyenAt (l : List Char) : Option ℚ :=
  let p := l.span Char.isDigit
  if p.1 = [] then none
  else
    let pf : List Char × List Char :=
      match p.2 with
      | '.' :: r =>
        let q := r.span Char.isDigit
        if q.1 = [] then ([], p.2) else (q.1, q.2)
      | _ => ([], p.2)
    match pf.2.dropWhile isPySpace with
    | c :: _ => if c = '万' then some (decimalToRat p.1 pf.1) else none
    | [] => none

/-- `re.search` with `PRICE_MANYEN_RE`: leftmost match wins. -/
def manyenSearch : List Char → Option ℚ
  | [] => none
  | c :: rest =>
    match matchManyenAt (c :: rest) with
    | some q => some q
    | none => manyenSearch rest

/-- The normalisation applied by `parser._parse_manyen_text_to_jpy` before
searching: full-width dot to dot, then commas (ASCII and full-width) and
ASCII spaces removed. -/
def manyenNormalize (s : String) : List Char :=
  removeChars [',', '，', ' '] (replaceChar '．' '.' s.toList)

/-- `parser._parse_manyen_text_to_jpy`. -/
def parse_manyen_text_to_jpy : Option String → Option ℤ
  | none => none
  | some s =>
    if s = "" then none
    else
      match manyenSearch (manyenNormalize s) with
      | none => none
      | some q => sanitize_price_jpy (some (bankerRound (q * (MANYEN_MULTIPLIER : ℚ))))

/-- `parser._parse_numeric_content_to_jpy`. -/
def parse_numeric_content_to_jpy : Option String → Option ℤ
  | none => none
  | some s =>
    let parsed := if s = "" then none
      else toIntDigits (some (String.mk (removeChars [',', '，'] s.toList)))
    match parsed with
    | none => none
    | some v =>
      let v' := if v < MANYEN_MULTIPLIER then v * MANYEN_MULTIPLIER else v
      sanitize_price_jpy (some v')

/-- Try to match `parser.MILEAGE_MANYEN_RE` = `(\d+(?:\.\d+)?)\s*万\s*km`
(case-insensitive) at the head of the list. -/
def matchMileageAt (l : List Char) : Option ℚ :=
  let p := l.span Char.isDigit
  if p.1 = [] then none
  else
    let pf : List Char × List Char :=
      match p.2 with
      | '.' :: r =>
        let q := r.span Char.isDigit
        if q.1 = [] then ([], p.2) else (q.1, q.2)
      | _ => ([], p.2)
    match pf.2.dropWhile isPySpace with
    | c :: rest2 =>
      if c = '万' then
        match rest2.dropWhile isPySpace with
        | k :: m :: _ =>
          if (k = 'k' || k = 'K') && (m = 'm' || m = 'M') then
            some (decimalToRat p.1 pf.1)
          else none
        | _ => none
      else none
    | [] => none

def mileageSearch : List Char → Option ℚ
  | [] => none
  | c :: rest =>
    match matchMileageAt (c :: rest) with
    | some q => some q
    | none => mileageSearch rest

/-- `parser._parse_mileage_km`. -/
def parse_mileage_km : Option String → Option ℤ
  | none => none
  | some s =>
    if s = "" then none
    else
      let text := String.mk (removeChars [','] s.toList)
      match mileageSearch text.toList with
      | some q => some (bankerRound (q * 10000))
      | none => toIntDigits (some text)

/-- Try to match `parser.YEAR_RE` = `(19\d{2}|20\d{2})` at the head of the
list, returning the year. -/
def matchYearAt : List Char → Option ℤ
  | a :: b :: c :: d :: _ =>
    if a = '1' && b = '9' && c.isDigit && d.isDigit then
      some (1900 + 10 * ((c.toNat : ℤ) - 48) + ((d.toNat : ℤ) - 48))
    else if a = '2' && b = '0' && c.isDigit && d.isDigit then
      some (2000 + 10 * ((c.toNat : ℤ) - 48) + ((d.toNat : ℤ) - 48))
    else none
  | _ => none

def yearSearch : List Char → Option ℤ
  | [] => none
  | c :: rest =>
    match matchYearAt (c :: rest) with
    | some y => some y
    | none => yearSearch rest

end CarResearch.Parse

namespace CarResearch.Translate

/-- `translator.MAKE_MAP` (exact dictionary for makes). -/
def MAKE_MAP : List (String × String) :=
  [("トヨタ", "Toyota"), ("日産", "Nissan"), ("ホンダ", "Honda"), ("マツダ", "Mazda"),
   ("スバル", "Subaru"), ("三菱", "Mitsubishi"), ("スズキ", "Suzuki"),
   ("ダイハツ", "Daihatsu"), ("レクサス", "Lexus"), ("アウディ", "Audi"),
   ("BMW", "BMW"), ("メルセデス・ベンツ", "Mercedes-Benz"), ("ポルシェ", "Porsche"),
   ("フォルクスワーゲン", "Volkswagen"), ("ボルボ", "Volvo"), ("シトロエン", "Citroen"),
   ("シトロエン ", "Citroen"), ("プジョー", "Peugeot"), ("ルノー", "Renault"),
   ("ジャガー", "Jaguar"), ("ランドローバー", "Land Rover"), ("フィアット", "Fiat"),
   ("アバルト", "Abarth"), ("ジープ", "Jeep"), ("フォード", "Ford"),
   ("シボレー", "Chevrolet"), ("クライスラー", "Chrysler"), ("テスラ", "Tesla")]

/-- `translator.COLOR_MAP` (exact dictionary for colors). -/
def COLOR_MAP : List (String × String) :=
  [("レッド", "Red"), ("ブルー", "Blue"), ("ホワイト", "White"), ("ブラック", "Black"),
   ("シルバー", "Silver"), ("グレー", "Gray"), ("ガンメタ", "Gunmetal"),
   ("ガンメタリック", "Gunmetal Metallic"), ("パール", "Pearl"),
   ("ワインレッド", "Wine Red"), ("ネイビー", "Navy"), ("グリーン", "Green"),
   ("イエロー", "Yellow"), ("オレンジ", "Orange"), ("ブラウン", "Brown"),
   ("ベージュ", "Beige"), ("ゴールド", "Gold"), ("ピンク", "Pink"), ("紫", "Purple"),
   ("ライトブルー", "Light Blue"), ("ダークブルー", "Dark Blue"),
   ("パールホワイト", "Pearl White"), ("ホワイトパール", "Pearl White"),
   ("ブルックリングレーメタリック", "Brooklyn Gray Metallic"),
   ("ホワイトノーヴァガラスフレーク", "White Nova Glass Flake"),
   ("ホワイトノヴァガラスフレーク", "White Nova Glass Flake"),
   ("グレーメタリック", "Gray Metallic"), ("シルバーメタリック", "Silver Metallic"),
   ("レッドメタリック", "Red Metallic"), ("ブルーメタリック", "Blue Metallic"),
   ("ブラックメタリック", "Black Metallic")]

/-- `translator.ROMANIZED_COLOR_MAP` (compact romanized keys). -/
def ROMANIZED_COLOR_MAP : List (String × String) :=
  [("howaitonoovuagarasufureeku", "White Nova Glass Flake"),
   ("howaitonovuagarasufureeku", "White Nova Glass Flake"),
   ("howaitonovagarasufureeku", "White Nova Glass Flake"),
   ("howaitonovagarasufureku", "White Nova Glass Flake"),
   ("burukkuringureemetarikku", "Brooklyn Gray Metallic"),
   ("buruukkuringureemetarikku", "Brooklyn Gray Metallic")]

/-- `translator.ROMANIZED_COLOR_TOKEN_MAP` (ordered substitution list). -/
def ROMANIZED_COLOR_TOKEN_MAP : List (String × String) :=
  [("shainingu", "Shining"), ("metarikku", "Metallic"), ("howaito", "White"),
   ("burakku", "Black"), ("buruu", "Blue"), ("guree", "Gray"), ("guriin", "Green"),
   ("gurin", "Green"), ("reddo", "Red"), ("orenji", "Orange"), ("beju", "Beige"),
   ("shirubaa", "Silver"), ("shiruba", "Silver"), ("paaru", "Pearl"),
   ("arupin", "Alpine")]

def ENGLISH_COLOR_KEYWORDS : List String :=
  ["white", "black", "blue", "gray", "green", "red", "orange", "beige", "silver",
   "pearl", "metallic"]

/-- `translator.MODEL_REPLACEMENTS` (ordered, as dict insertion order). -/
def MODEL_REPLACEMENTS : List (String × String) :=
  [("shiriizu", "Series"), ("shirizu", "Series"), ("supootsu", "Sports")]

/-- `unicodedata.normalize("NFKC", ·)`, modelled as the identity: every
string manipulated in this development (ASCII text, standard-width
katakana and kanji) is NFKC-invariant. -/
def nfkc (s : String) : String := s

/-- `translator._normalize`. -/
def pyNormalize : Option String → Option String
  | none => none
  | some s =>
    let t := String.mk
      (collapseWsAux false (pyStrip (replaceChar ' ' ' ' (nfkc s).toList)))
    if t = "" then none else some t

/-- `translator.CJK_RE` character test:
`[぀-ヿ㐀-䶿一-鿿]`. -/
def isCJK (c : Char) : Bool :=
  (decide (0x3040 ≤ c.toNat) && decide (c.toNat ≤ 0x30ff)) ||
  (decide (0x3400 ≤ c.toNat) && decide (c.toNat ≤ 0x4dbf)) ||
  (decide (0x4e00 ≤ c.toNat) && decide (c.toNat ≤ 0x9fff))

/-- Case-insensitive (ASCII) prefix match of pattern `pat` against a
character list. -/
def ciLeadMatch : List Char → List Char → Bool
  | [], _ => true
  | _ :: _, [] => false
  | a :: as, b :: bs => (a.toLower = b.toLower) && ciLeadMatch as bs

/-- `re.sub(pat, rep, ·, flags=re.IGNORECASE)` for a literal pattern:
leftmost, non-overlapping, continuing after each replacement.  The fuel
argument makes the recursion structural (hence kernel-reducible); every
step consumes at least one character, so with fuel = input length the
fuel-exhausted branch is never taken. -/
def replaceCIAux (pat rep : List Char) : ℕ → List Char → List Char
  | _, [] => []
  | 0, l => l
  | fuel + 1, c :: rest =>
    if pat ≠ [] ∧ ciLeadMatch pat (c :: rest) then
      rep ++ replaceCIAux pat rep fuel ((c :: rest).drop pat.length)
    else c :: replaceCIAux pat rep fuel rest

def replaceCI (pat rep : String) (l : List Char) : List Char :=
  replaceCIAux pat.toList rep.toList l.length l

/-- Character class of `translator.NON_WORD_RE` (negated there): ASCII
letters, digits, whitespace, hyphen, slash, plus. -/
def isWordish (c : Char) : Bool :=
  c.isAlpha && c.toNat < 128 || c.isDigit || isPySpace c || c = '-' || c = '/' || c = '+'

/-- Insert a space between adjacent characters satisfying `p` then `q`
(the lookaround substitutions in `translator._cleanup_ascii`). -/
def insertBoundary (p q : Char → Bool) : List Char → List Char
  | [] => []
  | [c] => [c]
  | a :: b :: rest =>
    if p a && q b then a :: ' ' :: insertBoundary p q (b :: rest)
    else a :: insertBoundary p q (b :: rest)

def isAsciiLower (c : Char) : Bool := 'a' ≤ c && c ≤ 'z'
def isAsciiUpper (c : Char) : Bool := 'A' ≤ c && c ≤ 'Z'
def isAsciiLetter (c : Char) : Bool := isAsciiLower c || isAsciiUpper c

/-- `translator._cleanup_ascii`. -/
def cleanup_ascii (s : String) : String :=
  let t1 := s.toList.map (fun c => if isWordish c then c else ' ')
  let t2 := insertBoundary Char.isDigit isAsciiLetter t1
  let t3 := insertBoundary isAsciiLower isAsciiUpper t2
  String.mk (pyStrip (collapseWsAux false t3))

/-- Split on a single ASCII space (Python `str.split(" ")`), keeping empty
fields. -/
def splitOnSpace : List Char → List (List Char)
  | [] => [[]]
  | c :: rest =>
    let r := splitOnSpace rest
    if c = ' ' then [] :: r
    else
      match r with
      | [] => [[c]]
      | h :: t => (c :: h) :: t

def UPPER_TOKEN_SET : List String := ["BMW", "GT", "AMG", "SUV", "WRX"]

def isUpperClassChar (c : Char) : Bool :=
  isAsciiUpper c || c.isDigit || c = '-' || c = '/' || c = '+'

/-- Python `str.capitalize()`: first character upper-cased, the rest
lower-cased. -/
def pyCapitalize : List Char → List Char
  | [] => []
  | c :: rest => c.toUpper :: rest.map Char.toLower

/-- `translator._title_or_upper_words`. -/
def title_or_upper_words (s : String) : String :=
  let words := (splitOnSpace s.toList).filter (fun t => t ≠ []) |>.map (fun token =>
    if token.all isUpperClassChar then token
    else if UPPER_TOKEN_SET.contains (String.mk (token.map Char.toUpper)) then
      token.map Char.toUpper
    else pyCapitalize token)
  String.intercalate " " (words.map String.mk)

/-- `translator._compact_ascii_key`: lower-case, then keep only
`[a-z0-9]`. -/
def compact_ascii_key (s : String) : String :=
  String.mk ((s.toList.map Char.toLower).filter (fun c => isAsciiLower c || c.isDigit))

def pyLower (s : String) : String := String.mk (s.toList.map Char.toLower)

/-- `translator._normalize_romanized_color_phrase`. -/
def normalize_romanized_color_phrase (value : Option String) : Option String :=
  match pyNormalize value with
  | none => none
  | some normalized =>
    let text := pyLower normalized
    let replaced := ROMANIZED_COLOR_TOKEN_MAP.foldl
      (fun acc p => replaceCI p.1 (" " ++ p.2 ++ " ") acc) text.toList
    let replaced := String.mk (pyStrip (collapseWsAux false replaced))
    if replaced = "" then none
    else
      let words := ((splitOnSpace replaced.toList).map
        (fun w => String.mk (w.map Char.toLower)))
      if ENGLISH_COLOR_KEYWORDS.any (fun k => words.contains k) then
        some (title_or_upper_words replaced)
      else none

/-- `translator._translate_generic`, parameterised by the external
`pykakasi` romanization (`translator._romanize`). -/
def translate_generic (romanize : String → String) (value : Option String) :
    Option String :=
  match pyNormalize value with
  | none => none
  | some n0 =>
    let n1 := if n0.toList.any isCJK then romanize n0 else n0
    let n2 := MODEL_REPLACEMENTS.foldl
      (fun acc p => String.mk (replaceCI p.1 p.2 acc.toList)) n1
    let n3 := cleanup_ascii n2
    if n3 = "" then none else some (title_or_upper_words n3)

/-- `translator.translate_make`. -/
def translate_make (romanize : String → String) (value : Option String) :
    Option String :=
  match pyNormalize value with
  | none => none
  | some normalized =>
    match alookup MAKE_MAP normalized with
    | some mapped => some mapped
    | none =>
      match translate_generic romanize (some normalized) with
      | some translated => some translated
      | none => some normalized

/-- `translator.translate_model`. -/
def translate_model (romanize : String → String) (value : Option String) :
    Option String :=
  translate_generic romanize value

/-- The compound-term special cases at the end of
`translator.translate_color` (substring tests on the normalized value). -/
def colorCompound (normalized : String) : Option String :=
  if containsSub normalized "グレー" && containsSub normalized "メタリック" then
    some "Gray Metallic"
  else if containsSub normalized "シルバー" && containsSub normalized "メタリック" then
    some "Silver Metallic"
  else if containsSub normalized "ブルー" && containsSub normalized "メタリック" then
    some "Blue Metallic"
  else if containsSub normalized "レッド" && containsSub normalized "メタリック" then
    some "Red Metallic"
  else if containsSub normalized "ブラック" && containsSub normalized "メタリック" then
    some "Black Metallic"
  else if containsSub normalized "ライト" && containsSub normalized "ブルー" then
    some "Light Blue"
  else if containsSub normalized "パール" && containsSub normalized "ホワイト" then
    some "Pearl White"
  else none

/-- `translator.translate_color`. -/
def translate_color (romanize : String → String) (value : Option String) :
    Option String :=
  match pyNormalize value with
  | none => none
  | some normalized =>
    match alookup COLOR_MAP normalized with
    | some mapped => some mapped
    | none =>
      match alookup ROMANIZED_COLOR_MAP (compact_ascii_key normalized) with
      | some m => some m
      | none =>
        match normalize_romanized_color_phrase (some normalized) with
        | some phrase => some phrase
        | none =>
          match colorCompound normalized with
          | some c => some c
          | none =>
            match translate_generic romanize (some normalized) with
            | none => some normalized
            | some translated =>
              match alookup ROMANIZED_COLOR_MAP (compact_ascii_key translated) with
              | some m => some m
              | none =>
                match normalize_romanized_color_phrase (some translated) with
                | some phrase => some phrase
                | none => some translated

end CarResearch.Translate

namespace CarResearch.Parse

def isOpenParen (c : Char) : Bool := c = '(' || c = '（'
def isCloseParen (c : Char) : Bool := c = ')' || c = '）'
def isParen (c : Char) : Bool := isOpenParen c || isCloseParen c

/-- The captured group of `parser.PAREN_COLOR_RE` for a match whose body
(the run of non-parenthesis characters after the opening parenthesis) is
`body`: the leading `\s*` greedily eats leading whitespace but must leave
at least one character for the group. -/
def parenGroupOfBody (body : List Char) : List Char :=
  if body.dropWhile isPySpace = [] then [body.getLastD ' ']
  else body.dropWhile isPySpace

/-- `re.search` with `PAREN_COLOR_RE` = an opening parenthesis, optional
whitespace, a non-empty run of non-parenthesis characters, optional
whitespace, a closing parenthesis: returns the first captured group.  A
match at a given start exists exactly when the maximal run of
non-parenthesis characters after the opener is non-empty and stops at a
closing parenthesis. -/
def parenSearchGroup : List Char → Option (List Char)
  | [] => none
  | c :: rest =>
    if isOpenParen c then
      match rest.dropWhile (fun d => !isParen d) with
      | d :: _ =>
        if rest.takeWhile (fun d => !isParen d) ≠ [] ∧ isCloseParen d then
          some (parenGroupOfBody (rest.takeWhile (fun d => !isParen d)))
        else parenSearchGroup rest
      | [] => parenSearchGroup rest
    else parenSearchGroup rest

/-- `PAREN_COLOR_RE.sub("", ·)`: delete every non-overlapping match,
scanning left to right and continuing after each match.  The fuel makes
the recursion structural; every step consumes at least one character, so
with fuel = input length the fuel-exhausted branch is never taken. -/
def parenSubAux : ℕ → List Char → List Char
  | _, [] => []
  | 0, l => l
  | fuel + 1, c :: rest =>
    if isOpenParen c then
      match rest.dropWhile (fun d => !isParen d) with
      | d :: after =>
        if rest.takeWhile (fun d => !isParen d) ≠ [] ∧ isCloseParen d then
          parenSubAux fuel after
        else c :: parenSubAux fuel rest
      | [] => c :: parenSubAux fuel rest
    else c :: parenSubAux fuel rest

def parenSub (l : List Char) : List Char := parenSubAux l.length l

/-- A spec box (`div.specWrap__box`): raw `get_text` of its title and
value paragraphs (absent node ↦ `none`). -/
structure SpecBox where
  title : Option String
  num : Option String

/-- A price node (`p.basePrice__price` / `p.totalPrice__price`): the
concatenation of its stripped strings and its `content` attribute. -/
structure PriceTag where
  text : String
  content : Option String

/-- The projections of the parsed HTML document that
`parser.parse_listing_html` reads via BeautifulSoup: each field is the raw
result of the corresponding selector (`get_text` output for text nodes),
with `none` for an absent node. -/
structure Soup where
  raw : String
  pageText : String
  specBoxes : List SpecBox
  trRows : List (Option String × Option String)
  dls : List (List (Option String) × List (Option String))
  h1Title1 : Option String
  h1Any : Option String
  basePrice : Option PriceTag
  totalPrice : Option PriceTag
  shopNameText : Option String
  shopAddressText : Option String
  shopPhoneText : Option String

/-- First-wins insertion into the label map (`if key and value and key not
in label_map`). -/
def lmInsert (m : List (String × String)) (kv : Option String × Option String) :
    List (String × String) :=
  match cleanText kv.1, cleanText kv.2 with
  | some k, some v => if (alookup m k).isSome then m else m ++ [(k, v)]
  | _, _ => m

/-- `parser._extract_label_map`: spec boxes, then table rows, then
definition lists; first match per label wins. -/
def extract_label_map (soup : Soup) : List (String × String) :=
  let m1 := soup.specBoxes.foldl (fun m box => lmInsert m (box.title, box.num)) []
  let m2 := soup.trRows.foldl (fun m row => lmInsert m row) m1
  soup.dls.foldl (fun m dl => (dl.1.zip dl.2).foldl (fun m p => lmInsert m p) m) m2

/-- `parser._extract_make_model_grade_color_from_title`. -/
def extract_make_model_grade_color_from_title (title : Option String) :
    Option String × Option String × Option String × Option String :=
  match title with
  | none => (none, none, none, none)
  | some t =>
    if t = "" then (none, none, none, none)
    else
      let text := (cleanText (some t)).getD ""
      let color := match parenSearchGroup text.toList with
        | some g => cleanText (some (String.mk g))
        | none => none
      let noColor := String.mk (pyStrip (parenSub text.toList))
      let parts := (Translate.splitOnSpace noColor.toList).filter (fun p => p ≠ [])
      let make := (parts.get? 0).map String.mk
      let model := (parts.get? 1).map String.mk
      let grade := if 3 ≤ parts.length then
          some (String.intercalate " " ((parts.drop 2).map String.mk))
        else none
      (make, model, grade, color)

/-- `parser._extract_year_from_spec_boxes`: scan the spec boxes in order;
the first box whose title contains the year label decides the outcome
(later boxes are not consulted). -/
def extract_year_from_spec_boxes (boxes : List SpecBox) : Option ℤ × List String :=
  match boxes with
  | [] => (none, [])
  | box :: rest =>
    let title := (cleanText box.title).getD ""
    if containsSub title YEAR_LABEL then
      match cleanText box.num with
      | none => (none, [title])
      | some raw =>
        match yearSearch raw.toList with
        | none => (none, [title])
        | some y => (some y, [title])
    else
      let r := extract_year_from_spec_boxes rest
      (r.1, title :: r.2)

/-- `parser._price_node_text` on a present node: join of stripped strings
with ASCII and full-width commas and ASCII spaces removed, empty ↦
`None`. -/
def price_node_text (tag : PriceTag) : Option String :=
  let t := String.mk (removeChars [',', '，', ' '] tag.text.toList)
  if t = "" then none else some t

/-- The "price not specified" marker test of `_parse_base_price_jpy` /
`_parse_total_price_jpy` (`marker in text or marker in text.upper()`). -/
def priceMarkerHit (tv : String) : Bool :=
  PRICE_NOT_SPECIFIED_MARKERS.any
    (fun m => containsSub tv m || containsSub (pyUpper tv) m)

/-- The final digit-extraction fallback shared by both price parsers:
concatenated digits, scaled by 10000 when below it, sanitized. -/
def priceDigitsFallback (tv : String) : Option ℤ :=
  match toIntDigits (some tv) with
  | none => none
  | some v =>
    let v' := if v < MANYEN_MULTIPLIER then v * MANYEN_MULTIPLIER else v
    sanitize_price_jpy (some v')

/-- `parser._parse_base_price_jpy`: value and error message. -/
def parse_base_price_jpy (soup : Soup) : Option ℤ × Option String :=
  match soup.basePrice with
  | none => (none, some "price_tag_missing")
  | some tag =>
    let textValue := price_node_text tag
    let marker := match textValue with
      | some tv => priceMarkerHit tv
      | none => false
    if marker then (none, some "price_not_specified")
    else
      let manyen := match textValue with
        | some tv => parse_manyen_text_to_jpy (some tv)
        | none => none
      match manyen with
      | some v => (some v, none)
      | none =>
        let contentParsed := match tag.content with
          | some cv => if cv = "" then none else parse_numeric_content_to_jpy (some cv)
          | none => none
        match contentParsed with
        | some v => (some v, none)
        | none =>
          let digits := match textValue with
            | some tv => priceDigitsFallback tv
            | none => none
          match digits with
          | some v => (some v, none)
          | none => (none, some "price_content_missing_or_invalid")

/-- `parser._parse_total_price_jpy`. -/
def parse_total_price_jpy (soup : Soup) : Option ℤ :=
  match soup.totalPrice with
  | none => none
  | some tag =>
    let textValue := price_node_text tag
    let marker := match textValue with
      | some tv => priceMarkerHit tv
      | none => false
    if marker then none
    else
      let manyen := match textValue with
        | some tv => parse_manyen_text_to_jpy (some tv)
        | none => none
      match manyen with
      | some v => some v
      | none =>
        let contentParsed := match tag.content with
          | some cv => if cv = "" then none else parse_numeric_content_to_jpy (some cv)
          | none => none
        match contentParsed with
        | some v => some v
        | none =>
          match textValue with
          | none => none
          | some tv =>
            match toIntDigits (some tv) with
            | none => none
            | some v =>
              let v' := if v < MANYEN_MULTIPLIER then v * MANYEN_MULTIPLIER else v
              sanitize_price_jpy (some v')

/-- `parser.check_listing_unavailable`: redirect to the search page, or an
unavailability marker in the page text. -/
def check_listing_unavailable (soup : Soup) (finalUrl : String) : Bool :=
  if containsSub finalUrl "/usedcar/search.php" then true
  else
    let text := (cleanText (some soup.pageText)).getD ""
    UNAVAILABLE_MARKERS.any (fun m => containsSub text m)

/-- `parser.ListingData`.  `year` is declared `int` in the source
dataclass; it is modelled as `Option ℤ` so that the claim that a parsed
listing always carries a year is a statement, not a typing assumption. -/
structure ListingData where
  external_id : String
  url : String
  make : String
  model : String
  year : Option ℤ
  price_jpy : Option ℤ
  price_rub : Option ℤ
  color : String
  grade : Option String
  mileage_km : Option ℤ
  total_price_jpy : Option ℤ
  total_price_rub : Option ℤ
  prefecture : Option String
  shop_name : Option String
  shop_address : Option String
  shop_phone : Option String
  transmission : Option String
  drive_type : Option String
  engine_cc : Option ℤ
  fuel : Option String
  steering : Option String
  body_type : Option String
  scraped_at : ℤ

/-- `parser.ParseFailure`. -/
structure ParseFailure where
  error_type : String
  message : String
  status_code : Option ℤ := none
  debug_snippet : Option String := none
  unavailable : Bool := false

inductive ParseResult where
  | listing (d : ListingData)
  | failure (f : ParseFailure)

/-- `parser.QuickMakeData`. -/
structure QuickMakeData where
  make : Option String
  model : Option String

/-- `parser.quick_extract_make_model`. -/
def quick_extract_make_model (romanize : String → String) (soup : Soup) :
    QuickMakeData :=
  let titleText := match cleanText soup.h1Title1 with
    | some t => some t
    | none => cleanText soup.h1Any
  let r := extract_make_model_grade_color_from_title titleText
  { make := Translate.translate_make romanize r.1,
    model := Translate.translate_model romanize r.2.1 }

/-- The Python-side message formatting of the missing-year failure
(`f"Missing year; found spec titles: {found_titles}"`; the quoting of the
interpolated list repr is abstracted to a plain comma-separated join). -/
def missingYearMessage (titles : List String) : String :=
  "Missing year; found spec titles: [" ++ String.intercalate ", " titles ++ "]"

/-- `parser.parse_listing_html`, parameterised by the external
romanization, over the document projections `Soup`.  `now` stands for
`datetime.now(timezone.utc)`. -/
def parse_listing_html (romanize : String → String) (soup : Soup)
    (url external_id finalUrl : String) (jpy_to_rub_rate : ℚ) (now : ℤ) :
    ParseResult :=
  if check_listing_unavailable soup finalUrl then
    .failure { error_type := "listing_unavailable",
               message := "Listing appears unavailable",
               debug_snippet := some (soup.raw.take 800),
               unavailable := true }
  else
    let labelMap := extract_label_map soup
    let titleText := match cleanText soup.h1Title1 with
      | some t => some t
      | none => cleanText soup.h1Any
    let tr := extract_make_model_grade_color_from_title titleText
    let make := Translate.translate_make romanize tr.1
    let model := Translate.translate_model romanize tr.2.1
    let color := Translate.translate_color romanize
      (match alookup labelMap COLOR_LABEL with
       | some v => some v
       | none => tr.2.2.2)
    let grade := Translate.translate_model romanize tr.2.2.1
    match (extract_year_from_spec_boxes soup.specBoxes).1 with
    | none =>
      .failure { error_type := "missing_year",
                 message :=
                   missingYearMessage (extract_year_from_spec_boxes soup.specBoxes).2,
                 debug_snippet := some (soup.raw.take 800) }
    | some year =>
      let basePrice := parse_base_price_jpy soup
      let price_jpy := basePrice.1
      let totalRaw := parse_total_price_jpy soup
      let total_price_jpy :=
        match price_jpy, totalRaw with
        | some p, some t => if t < p then none else some t
        | _, _ => totalRaw
      let mileage_km := parse_mileage_km (alookup labelMap MILEAGE_LABEL)
      let transmission := match alookup labelMap TRANSMISSION_LABEL with
        | some v => some v
        | none => alookup labelMap "AT/CVT"
      let drive_type := match alookup labelMap DRIVE_LABEL with
        | some v => some v
        | none => alookup labelMap "駆動"
      let shop_name := match alookup labelMap SHOP_LABEL with
        | some v => some v
        | none => cleanText soup.shopNameText
      let shop_address := match alookup labelMap ADDRESS_LABEL with
        | some v => some v
        | none => cleanText soup.shopAddressText
      let shop_phone := match alookup labelMap PHONE_LABEL with
        | some v => some v
        | none => cleanText soup.shopPhoneText
      let price_rub := match price_jpy with
        | some p => some (bankerRound ((p : ℚ) * jpy_to_rub_rate))
        | none => none
      let total_price_rub := match total_price_jpy with
        | some t => some (bankerRound ((t : ℚ) * jpy_to_rub_rate))
        | none => none
      .listing
        { external_id := external_id,
          url := url,
          make := (make.getD "Unknown"),
          model := (model.getD "Unknown"),
          year := some year,
          price_jpy := price_jpy,
          price_rub := price_rub,
          color := (color.getD "Unknown"),
          grade := grade,
          mileage_km := mileage_km,
          total_price_jpy := total_price_jpy,
          total_price_rub := total_price_rub,
          prefecture := alookup labelMap REGION_LABEL,
          shop_name := shop_name,
          shop_address := shop_address,
          shop_phone := shop_phone,
          transmission := transmission,
          drive_type := drive_type,
          engine_cc := toIntDigits (alookup labelMap ENGINE_CC_LABEL),
          fuel := alookup labelMap FUEL_LABEL,
          steering := alookup labelMap STEERING_LABEL,
          body_type := alookup labelMap BODY_TYPE_LABEL,
          scraped_at := now }

end CarResearch.Parse

namespace CarResearch.Sitemap

/-- `sitemaps.ListingCandidate` (`lastmod` as an integer timestamp). -/
structure ListingCandidate where
  external_id : String
  url : String
  lastmod : ℤ
deriving DecidableEq

/-- One step of the deduplication in `sitemaps.discover_candidates`:
`if existing is None or candidate.lastmod > existing.lastmod:
by_url[candidate.url] = candidate`. -/
def dedupInsert (byUrl : List (String × ListingCandidate)) (c : ListingCandidate) :
    List (String × ListingCandidate) :=
  match alookup byUrl c.url with
  | none => byUrl ++ [(c.url, c)]
  | some existing =>
    if existing.lastmod < c.lastmod then areplace byUrl c.url c else byUrl

/-- The `by_url` map accumulated over every candidate parsed from the
detail sitemaps, in processing order. -/
def dedupByUrl (cands : List ListingCandidate) : List (String × ListingCandidate) :=
  cands.foldl dedupInsert []

end CarResearch.Sitemap

namespace CarResearch.Select

open CarResearch.Sitemap

/-- Append a candidate to its make's bucket, preserving bucket order
(`grouped[maker].append(candidate)` on the `defaultdict`). -/
def gmInsert (g : List (String × List ListingCandidate)) (m : String)
    (c : ListingCandidate) : List (String × List ListingCandidate) :=
  match g with
  | [] => [(m, [c])]
  | (k, l) :: rest =>
    if k = m then (k, l ++ [c]) :: rest else (k, l) :: gmInsert rest m c

/-- One candidate of the grouping loop in
`selector.select_candidates_by_make`. -/
def groupStep (makeOf : String → Option String)
    (acc : List (String × List ListingCandidate) × List ListingCandidate)
    (c : ListingCandidate) :
    List (String × List ListingCandidate) × List ListingCandidate :=
  match makeOf c.url with
  | none => (acc.1, acc.2 ++ [c])
  | some m => (gmInsert acc.1 m c, acc.2)

/-- Grouping phase of `selector.select_candidates_by_make`: candidates
whose make the prefetch determined go to their make's bucket (in pool
order), the rest to the leftover list.  The prefetch itself (network fetch
+ title parse) is abstracted as the oracle `makeOf : url ↦ make`, exactly
the contents of the `make_by_url` dict. -/
def groupByMake (makeOf : String → Option String)
    (pool : List ListingCandidate) :
    List (String × List ListingCandidate) × List ListingCandidate :=
  pool.foldl (groupStep makeOf) ([], [])

/-- Insertion sort on strings (`sorted(grouped.keys())`). -/
def insertSorted (x : String) : List String → List String
  | [] => [x]
  | y :: rest => if x ≤ y then x :: y :: rest else y :: insertSorted x rest

def sortStrings (l : List String) : List String := l.foldr insertSorted []

/-- Mutable state of the selection loops: remaining buckets, per-make
counter, selected list. -/
structure SelState where
  grouped : List (String × List ListingCandidate)
  counter : String → ℕ
  selected : List ListingCandidate

def gLook (g : List (String × List ListingCandidate)) (m : String) :
    List ListingCandidate :=
  (alookup g m).getD []

/-- Drop the first candidate of make `m`'s bucket (`grouped[make].pop(0)`;
keys are unique, so updating the first matching entry is dict
assignment). -/
def gPop : List (String × List ListingCandidate) → String →
    List (String × List ListingCandidate)
  | [], _ => []
  | (k, l) :: rest, m =>
    if k = m then (k, l.tail) :: rest else (k, l) :: gPop rest m

/-- One round of the round-robin (`for make in make_order` body): take one
candidate per make, skipping empty buckets and makes at the cap, breaking
once `max_listings` is reached; the Boolean records `progressed`. -/
def onePass (maxL cap : ℕ) : List String → SelState → Bool → SelState × Bool
  | [], st, prog => (st, prog)
  | m :: rest, st, prog =>
    if maxL ≤ st.selected.length then (st, prog)
    else
      match gLook st.grouped m with
      | [] => onePass maxL cap rest st prog
      | c :: _ =>
        if cap ≤ st.counter m then onePass maxL cap rest st prog
        else
          onePass maxL cap rest
            { grouped := gPop st.grouped m,
              counter := fun k => if k = m then st.counter m + 1 else st.counter k,
              selected := st.selected ++ [c] }
            true

/-- The `while len(selected) < max_listings` loop: repeat rounds while
progress is made.  `fuel` bounds the number of rounds; every executed
round either selects at least one candidate (so at most `maxL` such
rounds run) or terminates the loop, hence `maxL + 1` fuel is never
exhausted. -/
def selectLoop (maxL cap : ℕ) (makeOrder : List String) :
    ℕ → SelState → SelState
  | 0, st => st
  | fuel + 1, st =>
    if st.selected.length < maxL then
      let r := onePass maxL cap makeOrder st false
      if r.2 then selectLoop maxL cap makeOrder fuel r.1 else r.1
    else st

/-- Drain one make's bucket ignoring the cap (`while grouped[make] and
len(selected) < max_listings`), fuelled by the bucket length. -/
def drainMakeAux (maxL : ℕ) (m : String) : ℕ → SelState → SelState
  | 0, st => st
  | fuel + 1, st =>
    match gLook st.grouped m with
    | [] => st
    | c :: _ =>
      if st.selected.length < maxL then
        drainMakeAux maxL m fuel
          { grouped := gPop st.grouped m,
            counter := fun k => if k = m then st.counter m + 1 else st.counter k,
            selected := st.selected ++ [c] }
      else st

def drainMake (maxL : ℕ) (m : String) (st : SelState) : SelState :=
  drainMakeAux maxL m (gLook st.grouped m).length st

/-- The post-loop drain over makes in order, stopping when full. -/
def drainPhase (maxL : ℕ) : List String → SelState → SelState
  | [], st => st
  | m :: rest, st =>
    let st' := drainMake maxL m st
    if maxL ≤ st'.selected.length then st' else drainPhase maxL rest st'

/-- `selector.select_candidates_by_make`, returning the selected
candidates and the per-make distribution counter.  The random shuffle is
abstracted by quantifying over the (post-shuffle) pool order, and the
prefetch by the `makeOf` oracle (the page cache is not modelled: it does
not influence which candidates are selected). -/
def select_candidates_by_make (makeOf : String → Option String)
    (pool : List ListingCandidate) (max_listings per_make_limit : ℕ) :
    List ListingCandidate × (String → ℕ) :=
  if max_listings = 0 then ([], fun _ => 0)
  else
    let gl := groupByMake makeOf pool
    let makeOrder := sortStrings (gl.1.map Prod.fst)
    let st0 : SelState := ⟨gl.1, fun _ => 0, []⟩
    let st1 := selectLoop max_listings per_make_limit makeOrder (max_listings + 1) st0
    let st2 := if st1.selected.length < max_listings then
        drainPhase max_listings makeOrder st1
      else st1
    let selected := if st2.selected.length < max_listings ∧ gl.2 ≠ [] then
        st2.selected ++ gl.2.take (max_listings - st2.selected.length)
      else st2.selected
    (selected, st2.counter)

end CarResearch.Select

namespace CarResearch.Net

/-- The transport-level outcome of one `requests.Session.get` call, as the
retry loop in `client.HttpClient._request_with_retries` observes it. -/
inductive AttemptOutcome where
  | response (status : ℕ) (encoding : Option String) (apparentEncoding : Option String)
  | timeout
  | connectionError (isDns : Bool)

/-- `client.HttpRequestError`'s typed payload. -/
structure HttpError where
  message : String
  url : String
  status_code : Option ℕ
  retryable : Bool
  error_kind : Option String
deriving DecidableEq

/-- The response as returned to callers: status code plus the (possibly
repaired) text encoding. -/
structure HttpResponse where
  status : ℕ
  encoding : Option String
deriving DecidableEq

/-- The encoding repair on a successful response: adopt the apparent
encoding when one exists and the declared encoding is absent or a known
mis-detection placeholder. -/
def repairEncoding (declared apparent : Option String) : Option String :=
  match apparent with
  | none => declared
  | some app =>
    if app = "" then declared
    else
      let cur := Translate.pyLower ((declared).getD "")
      if cur = "" || cur = "iso-8859-1" || cur = "latin-1" || cur = "cp1252" then
        some app
      else declared

/-- The retry loop of `client.HttpClient._request_with_retries`.  The
oracle `transport` gives the outcome of the attempt with the given 1-based
number; `remaining` counts the attempts left (`MAX_RETRIES - done`), the
result carries the number of attempts actually consumed.  Backoff sleeps
and the post-success pacing delay have no observable effect here and are
not modelled. -/
def requestGo (transport : ℕ → AttemptOutcome) (url : String) (allow404 : Bool)
    (maxRetries : ℕ) : ℕ → ℕ → Option HttpError →
    Except HttpError HttpResponse × ℕ
  | 0, done, lastErr =>
    (.error (lastErr.getD
      ⟨"Unknown HTTP error", url, none, false, none⟩), done)
  | remaining + 1, done, _ =>
    let attempt := done + 1
    match transport attempt with
    | .response st enc app =>
      if st = 404 ∧ allow404 then (.ok ⟨st, enc⟩, attempt)
      else if 500 ≤ st then
        let e : HttpError :=
          ⟨"HTTP " ++ toString st, url, some st, true, some "http_5xx"⟩
        if maxRetries ≤ attempt then (.error e, attempt)
        else requestGo transport url allow404 maxRetries remaining attempt (some e)
      else if 400 ≤ st then
        (.error ⟨"HTTP " ++ toString st, url, some st, false, some "http_4xx"⟩,
         attempt)
      else (.ok ⟨st, repairEncoding enc app⟩, attempt)
    | .timeout =>
      let e : HttpError := ⟨"timeout", url, none, true, some "timeout"⟩
      if maxRetries ≤ attempt then (.error e, attempt)
      else requestGo transport url allow404 maxRetries remaining attempt (some e)
    | .connectionError isDns =>
      let e : HttpError :=
        ⟨"connection error", url, none, !isDns,
         some (if isDns then "dns" else "connection")⟩
      if isDns ∨ maxRetries ≤ attempt then (.error e, attempt)
      else requestGo transport url allow404 maxRetries remaining attempt (some e)

/-- `client.HttpClient._request_with_retries`. -/
def request_with_retries (transport : ℕ → AttemptOutcome) (url : String)
    (allow404 : Bool) (maxRetries : ℕ) : Except HttpError HttpResponse × ℕ :=
  requestGo transport url allow404 maxRetries maxRetries 0 none

/-- Hostname extraction from `scheme://netloc/...` (`urlparse(url).netloc`
on the URL shapes this client sees). -/
def urlNetloc (url : String) : Option (String × String × String) :=
  let l := url.toList
  match l.dropWhile (fun c => c ≠ ':') with
  | ':' :: '/' :: '/' :: rest =>
    let host := rest.takeWhile (fun c => c ≠ '/' && c ≠ '?' && c ≠ '#')
    let tail := rest.dropWhile (fun c => c ≠ '/' && c ≠ '?' && c ≠ '#')
    some (String.mk (l.takeWhile (fun c => c ≠ ':')), String.mk host, String.mk tail)
  | _ => none

/-- `client._build_fallback_url`: toggle the `www.` host prefix, only for
the known target domain. -/
def build_fallback_url (url : String) : Option String :=
  match urlNetloc url with
  | none => none
  | some (scheme, host, rest) =>
    if host = "" then none
    else
      let hostLower := Translate.pyLower host
      if !containsSub hostLower "carsensor.net" then none
      else
        let newHost := if leadMatch "www.".toList hostLower.toList then
            String.mk (host.toList.drop 4)
          else "www." ++ host
        if Translate.pyLower newHost = hostLower then none
        else some (scheme ++ "://" ++ newHost ++ rest)

/-- `client.HttpClient.get`: one retry loop, then exactly one alternate
host when the failure was a DNS failure and a fallback URL exists.  The
transport oracle is keyed by URL; the count is the total attempts
consumed. -/
def client_get (transport : String → ℕ → AttemptOutcome) (url : String)
    (allow404 : Bool) (maxRetries : ℕ) : Except HttpError HttpResponse × ℕ :=
  let r := request_with_retries (transport url) url allow404 maxRetries
  match r.1 with
  | .ok resp => (.ok resp, r.2)
  | .error e =>
    if e.error_kind ≠ some "dns" then (.error e, r.2)
    else
      match build_fallback_url url with
      | none => (.error e, r.2)
      | some fb =>
        let r2 := request_with_retries (transport fb) fb allow404 maxRetries
        (r2.1, r.2 + r2.2)

end CarResearch.Net

namespace CarResearch.Worker

open CarResearch.Sitemap

/-- A persisted row of the `listings` table (columns of
`app.db.models.Listing` that the worker reads or writes; `id` is
surrogate and omitted; datetimes are integers). -/
structure Row where
  source : String
  external_id : String
  url : String
  maker : String
  model : String
  grade : Option String
  color : Option String
  year : Option ℤ
  mileage_km : Option ℤ
  price_jpy : Option ℤ
  price_rub : Option ℤ
  total_price_jpy : Option ℤ
  total_price_rub : Option ℤ
  prefecture : Option String
  shop_name : Option String
  shop_address : Option String
  shop_phone : Option String
  transmission : Option String
  drive_type : Option String
  engine_cc : Option ℤ
  fuel : Option String
  steering : Option String
  body_type : Option String
  scraped_at : ℤ
  last_seen_at : ℤ
  is_active : Bool
  deleted_at : Option ℤ

/-- The listing store: a partial map keyed by `(source, external_id)`
(the table's unique constraint). -/
abbrev Store := String × String → Option Row

/-- The placeholder row inserted for a newly discovered candidate in
`worker._touch_discovered` (fields absent from the insert payload take the
column defaults: `scraped_at` defaults to now, the rest to NULL). -/
def placeholderRow (sourceName : String) (c : ListingCandidate) (now : ℤ) : Row :=
  { source := sourceName, external_id := c.external_id, url := c.url,
    maker := "Unknown", model := "Unknown", grade := none, color := none,
    year := none, mileage_km := none, price_jpy := none, price_rub := none,
    total_price_jpy := none, total_price_rub := none, prefecture := none,
    shop_name := none, shop_address := none, shop_phone := none,
    transmission := none, drive_type := none, engine_cc := none, fuel := none,
    steering := none, body_type := none, scraped_at := now, last_seen_at := now,
    is_active := true, deleted_at := none }

/-- One candidate's upsert in `worker._touch_discovered`: insert the
placeholder, or on conflict update only `url`, `last_seen_at`,
`is_active=True`, `deleted_at=None`. -/
def touchOne (sourceName : String) (now : ℤ) (s : Store) (c : ListingCandidate) :
    Store := fun k =>
  if k = (sourceName, c.external_id) then
    match s k with
    | none => some (placeholderRow sourceName c now)
    | some old =>
      some { old with url := c.url, last_seen_at := now, is_active := true,
                      deleted_at := none }
  else s k

/-- `worker._touch_discovered` over the whole candidate list. -/
def touch_discovered (sourceName : String) (cands : List ListingCandidate)
    (now : ℤ) (s : Store) : Store :=
  cands.foldl (fun acc c => touchOne sourceName now acc c) s

/-- The upsert payload row built from a parsed listing in
`worker._upsert_listings` (`last_seen_at=now`, `is_active=True`,
`deleted_at=None`). -/
def listingToRow (sourceName : String) (ld : Parse.ListingData) (now : ℤ) : Row :=
  { source := sourceName, external_id := ld.external_id, url := ld.url,
    maker := ld.make, model := ld.model, grade := ld.grade, color := some ld.color,
    year := ld.year, mileage_km := ld.mileage_km, price_jpy := ld.price_jpy,
    price_rub := ld.price_rub, total_price_jpy := ld.total_price_jpy,
    total_price_rub := ld.total_price_rub, prefecture := ld.prefecture,
    shop_name := ld.shop_name, shop_address := ld.shop_address,
    shop_phone := ld.shop_phone, transmission := ld.transmission,
    drive_type := ld.drive_type, engine_cc := ld.engine_cc, fuel := ld.fuel,
    steering := ld.steering, body_type := ld.body_type,
    scraped_at := ld.scraped_at, last_seen_at := now, is_active := true,
    deleted_at := none }

/-- One row's conflict-resolving upsert in `worker._upsert_listings`: the
`ON CONFLICT DO UPDATE` sets every payload column, so insert and update
both leave exactly the payload row. -/
def upsertRow (s : Store) (r : Row) : Store := fun k =>
  if k = (r.source, r.external_id) then some r else s k

/-- `worker._upsert_listings`. -/
def upsert_listings (sourceName : String) (rows : List Parse.ListingData)
    (now : ℤ) (s : Store) : Store :=
  rows.foldl (fun acc ld => upsertRow acc (listingToRow sourceName ld now)) s

/-- `worker._mark_unavailable`: deactivate every row of the source whose
external id was reported unavailable, setting `is_active=False`,
`deleted_at=now`, `last_seen_at=now`. -/
def mark_unavailable (sourceName : String) (ids : List String) (now : ℤ)
    (s : Store) : Store := fun k =>
  match s k with
  | none => none
  | some r =>
    if r.source = sourceName ∧ ids.contains r.external_id then
      some { r with is_active := false, deleted_at := some now, last_seen_at := now }
    else some r

/-- The first statement of `worker._cleanup_stale` applied to one row:
deactivate an active row of the source not seen since the inactivity
cutoff. -/
def deactivateStaleRow (sourceName : String) (now deactivateBefore : ℤ) (r : Row) :
    Row :=
  if r.source = sourceName ∧ r.is_active = true ∧ r.last_seen_at < deactivateBefore
  then { r with is_active := false, deleted_at := some now }
  else r

/-- The delete statement of `worker._cleanup_stale` as a row predicate:
inactive rows of the source not seen since the deletion cutoff are
removed. -/
def deleteStaleHits (sourceName : String) (deleteBefore : ℤ) (r : Row) : Prop :=
  r.source = sourceName ∧ r.is_active = false ∧ r.last_seen_at < deleteBefore

instance (sourceName : String) (deleteBefore : ℤ) (r : Row) :
    Decidable (deleteStaleHits sourceName deleteBefore r) := by
  unfold deleteStaleHits; infer_instance

/-- `worker._cleanup_stale`: the deactivation update followed by the
retention delete, with `deactivate_before = now - INACTIVE_AFTER_DAYS` and
`delete_before = now - DELETE_AFTER_DAYS`. -/
def cleanup_stale (sourceName : String) (now deactivateBefore deleteBefore : ℤ)
    (s : Store) : Store := fun k =>
  match s k with
  | none => none
  | some r =>
    let r1 := deactivateStaleRow sourceName now deactivateBefore r
    if deleteStaleHits sourceName deleteBefore r1 then none else some r1

/-- The character class of the `cjk_regex` in
`worker._normalize_existing_translations`. -/
def containsDbCJK (s : String) : Bool :=
  s.toList.any (fun c =>
    (decide (0x3041 ≤ c.toNat) && decide (c.toNat ≤ 0x3093)) ||
    (decide (0x30a1 ≤ c.toNat) && decide (c.toNat ≤ 0x30f6)) ||
    (decide (0x4e00 ≤ c.toNat) && decide (c.toNat ≤ 0x9fa0)))

/-- `worker._normalize_existing_translations`: re-translate the maker,
model and color of every row of the source still holding Japanese text
(the conditional assignment on change is pointwise identical to the
unconditional one). -/
def normalize_existing_translations (romanize : String → String)
    (sourceName : String) (s : Store) : Store := fun k =>
  match s k with
  | none => none
  | some r =>
    if r.source = sourceName ∧
        (containsDbCJK r.maker || containsDbCJK r.model ||
          containsDbCJK ((r.color).getD "")) = true then
      some { r with
        maker := (Translate.translate_make romanize (some r.maker)).getD r.maker,
        model := (Translate.translate_model romanize (some r.model)).getD r.model,
        color := match r.color with
          | some c =>
            if c = "" then some c else Translate.translate_color romanize (some c)
          | none => none }
    else some r

/-- One write operation of the lifecycle reconciler, as performed by a
worker cycle (`worker.run_cycle`). -/
inductive ReconcilerStep : Store → Store → Prop where
  | touch (sourceName : String) (cands : List ListingCandidate) (now : ℤ)
      (s : Store) : ReconcilerStep s (touch_discovered sourceName cands now s)
  | normalize (romanize : String → String) (sourceName : String) (s : Store) :
      ReconcilerStep s (normalize_existing_translations romanize sourceName s)
  | upsert (sourceName : String) (rows : List Parse.ListingData) (now : ℤ)
      (s : Store) : ReconcilerStep s (upsert_listings sourceName rows now s)
  | markUnavailable (sourceName : String) (ids : List String) (now : ℤ)
      (s : Store) : ReconcilerStep s (mark_unavailable sourceName ids now s)
  | cleanup (sourceName : String) (now deactivateBefore deleteBefore : ℤ)
      (s : Store) :
      ReconcilerStep s (cleanup_stale sourceName now deactivateBefore deleteBefore s)

end CarResearch.Worker

namespace CarResearch

open CarResearch.Parse

/-- Characterisation of a successful parse: the unavailability check was
negative, a year was extracted, and the price fields of the returned
listing are determined by the two price parsers, the total-price
consistency rule and the JPY→RUB conversion. -/
theorem parse_listing_ok_fields (romanize : String → String) (soup : Soup)
    (url eid furl : String) (rate : ℚ) (now : ℤ) (ld : ListingData)
    (h : parse_listing_html romanize soup url eid furl rate now = .listing ld) :
    check_listing_unavailable soup furl = false ∧
    ld.year = (extract_year_from_spec_boxes soup.specBoxes).1 ∧
    ld.year ≠ none ∧
    ld.price_jpy = (parse_base_price_jpy soup).1 ∧
    ld.total_price_jpy =
      (match (parse_base_price_jpy soup).1, parse_total_price_jpy soup with
       | some p, some t => if t < p then none else some t
       | _, _ => parse_total_price_jpy soup) ∧
    ld.price_rub = (match ld.price_jpy with
       | some p => some (bankerRound ((p : ℚ) * rate))
       | none => none) ∧
    ld.total_price_rub = (match ld.total_price_jpy with
       | some t => some (bankerRound ((t : ℚ) * rate))
       | none => none) := by
  simp only [parse_listing_html] at h
  split at h
  · exact absurd h (by simp)
  · rename_i hcheck
    split at h
    · exact absurd h (by simp)
    · rename_i year hyear
      simp only [ParseResult.listing.injEq] at h
      subst h
      refine ⟨by simpa using hcheck, by simp [hyear], by simp, rfl, rfl, ?_, ?_⟩
      · cases (parse_base_price_jpy soup).1 <;> rfl
      · cases hb : (parse_base_price_jpy soup).1 <;>
          cases ht : parse_total_price_jpy soup <;> simp [hb, ht] <;> split <;> rfl

/-- C7: price sanitization is idempotent; any already-sanitized value is
returned unchanged (hence in particular unchanged-or-`None`); the sentinel
values 99,999,999 and 999,999,999 always sanitize to `None`. -/
theorem sanitize_price_idempotent :
    (∀ v : Option ℤ, sanitize_price_jpy (sanitize_price_jpy v) = sanitize_price_jpy v) ∧
    (∀ v w : Option ℤ, sanitize_price_jpy w = v →
      sanitize_price_jpy v = v ∨ sanitize_price_jpy v = none) ∧
    sanitize_price_jpy (some 99999999) = none ∧
    sanitize_price_jpy (some 999999999) = none := by
  have idem : ∀ v : Option ℤ,
      sanitize_price_jpy (sanitize_price_jpy v) = sanitize_price_jpy v := by
    intro v
    cases v with
    | none => rfl
    | some x =>
      simp only [sanitize_price_jpy]
      split_ifs with h1 h2 h3
      · rfl
      · rfl
      · rfl
      · simp only [sanitize_price_jpy]
        rw [if_neg h1, if_neg h2, if_neg h3]
  refine ⟨idem, ?_, by decide, by decide⟩
  intro v w h
  left
  rw [← h]
  exact idem w

/-- Witness for C7 at a concrete sanitized value. -/
theorem sanitize_price_idempotent_witness :
    sanitize_price_jpy (some 500000) = some 500000 ∨
    sanitize_price_jpy (some 500000) = none :=
  sanitize_price_idempotent.2.1 (some 500000) (some 500000) (by decide)

/-- Python `round` on an exact integer is that integer. -/
theorem bankerRound_intCast (n : ℤ) : bankerRound ((n : ℚ)) = n := by
  simp only [bankerRound, Int.floor_intCast, sub_self]
  norm_num

/-- C3 counterexample: the displayed manyen number 9000 is parsed from
"9000万", `round(9000 * 10_000) = 90_000_000`, yet the parsed JPY price is
`None` (the sanitizer discards values at or above the 90,000,000 ceiling),
so the parsed price does not equal `round(d * 10_000)` as claimed. -/
theorem manyen_round_counterexample :
    manyenSearch (manyenNormalize "9000万") = some 9000 ∧
    bankerRound ((9000 : ℚ) * (MANYEN_MULTIPLIER : ℚ)) = 90000000 ∧
    parse_manyen_text_to_jpy (some "9000万") = none := by
  have hsearch : manyenSearch (manyenNormalize "9000万") =
      some (decimalToRat ['9', '0', '0', '0'] []) := rfl
  have hd : digitsToNat ['9', '0', '0', '0'] = 9000 := by decide
  have hd0 : digitsToNat [] = 0 := rfl
  have hval : decimalToRat ['9', '0', '0', '0'] [] = (9000 : ℚ) := by
    simp only [decimalToRat, hd, hd0]
    norm_num
  have hround : bankerRound ((9000 : ℚ) * (MANYEN_MULTIPLIER : ℚ)) = 90000000 := by
    have hc : ((9000 : ℚ) * (MANYEN_MULTIPLIER : ℚ)) = ((90000000 : ℤ) : ℚ) := by
      norm_num [MANYEN_MULTIPLIER]
    rw [hc, bankerRound_intCast]
  have hne : ¬ ("9000万" : String) = "" := by decide
  refine ⟨by rw [hsearch, hval], hround, ?_⟩
  simp only [parse_manyen_text_to_jpy, hne, if_false, hsearch, hval]
  rw [hround]
  decide

/-- C3 amended: for manyen-unit display text whose (leftmost) manyen
number is `q`, the parsed JPY price is `round(q * 10_000)` passed through
the price sanitizer — in particular it equals `round(q * 10_000)` whenever
that value is positive, not a sentinel, and below the 90,000,000 ceiling —
and on every successfully parsed listing the RUB prices equal
`round(jpy * rate)` whenever the JPY source value is present. -/
theorem manyen_round_amended :
    (∀ (s : String) (q : ℚ), manyenSearch (manyenNormalize s) = some q →
      parse_manyen_text_to_jpy (some s) =
        sanitize_price_jpy (some (bankerRound (q * (MANYEN_MULTIPLIER : ℚ)))) ∧
      (0 < bankerRound (q * (MANYEN_MULTIPLIER : ℚ)) →
       ¬ INVALID_PRICE_JPY_VALUES.contains (bankerRound (q * (MANYEN_MULTIPLIER : ℚ))) →
       bankerRound (q * (MANYEN_MULTIPLIER : ℚ)) < PRICE_NOT_SPECIFIED_JPY_THRESHOLD →
       parse_manyen_text_to_jpy (some s) =
         some (bankerRound (q * (MANYEN_MULTIPLIER : ℚ))))) ∧
    (∀ (romanize : String → String) (soup : Soup) (url eid furl : String)
       (rate : ℚ) (now : ℤ) (ld : ListingData),
      parse_listing_html romanize soup url eid furl rate now = .listing ld →
      (∀ p, ld.price_jpy = some p →
        ld.price_rub = some (bankerRound ((p : ℚ) * rate))) ∧
      (∀ t, ld.total_price_jpy = some t →
        ld.total_price_rub = some (bankerRound ((t : ℚ) * rate)))) := by
  constructor
  · intro s q hq
    have hs : ¬ s = "" := by
      intro he
      rw [he] at hq
      have hnil : manyenSearch (manyenNormalize "") = none := rfl
      rw [hnil] at hq
      exact Option.noConfusion hq
    have hmain : parse_manyen_text_to_jpy (some s) =
        sanitize_price_jpy (some (bankerRound (q * (MANYEN_MULTIPLIER : ℚ)))) := by
      simp only [parse_manyen_text_to_jpy, hs, if_false, hq]
    refine ⟨hmain, ?_⟩
    intro hpos hsent hceil
    rw [hmain]
    simp only [sanitize_price_jpy]
    rw [if_neg (by omega), if_neg (by simpa using hsent), if_neg (by omega)]
  · intro romanize soup url eid furl rate now ld h
    obtain ⟨-, -, -, -, -, hpr, htr⟩ :=
      parse_listing_ok_fields romanize soup url eid furl rate now ld h
    constructor
    · intro p hp
      rw [hpr, hp]
    · intro t ht
      rw [htr, ht]

/-- Witness for C3 amended at the fixture price text "80.0万円". -/
theorem manyen_round_amended_witness :
    parse_manyen_text_to_jpy (some "80.0万円") =
      some (bankerRound ((80 : ℚ) * (MANYEN_MULTIPLIER : ℚ))) := by
  have hsearch : manyenSearch (manyenNormalize "80.0万円") =
      some (decimalToRat ['8', '0'] ['0']) := rfl
  have hd : digitsToNat ['8', '0'] = 80 := by decide
  have hd0 : digitsToNat ['0'] = 0 := by decide
  have hval : decimalToRat ['8', '0'] ['0'] = (80 : ℚ) := by
    simp only [decimalToRat, hd, hd0]
    norm_num
  have hround : bankerRound ((80 : ℚ) * (MANYEN_MULTIPLIER : ℚ)) = 800000 := by
    have hc : ((80 : ℚ) * (MANYEN_MULTIPLIER : ℚ)) = ((800000 : ℤ) : ℚ) := by
      norm_num [MANYEN_MULTIPLIER]
    rw [hc, bankerRound_intCast]
  exact (manyen_round_amended.1 "80.0万円" 80 (by rw [hsearch, hval])).2
    (by rw [hround]; decide) (by rw [hround]; decide) (by rw [hround]; decide)

/-- C9 counterexample: "!" is a non-`None`, non-empty raw input, yet
`translate_model` returns `None` for it (generic cleanup strips the text
to nothing and no fallback applies); and the non-empty whitespace input
" " makes even `translate_make` return `None`. -/
theorem translator_nonnull_counterexample :
    Translate.translate_model (fun s => s) (some "!") = none ∧
    Translate.translate_make (fun s => s) (some " ") = none ∧
    ("!" : String) ≠ "" ∧ (" " : String) ≠ "" := by
  refine ⟨by decide, by decide, by decide, by decide⟩

/-- C9 amended: for every raw input that normalizes to non-empty text,
`translate_make` and `translate_color` always return some non-`None` text,
falling back to the cleaned/romanized or normalized original;
`translate_model` alone may return `None` when cleanup strips everything. -/
theorem translator_nonnull_amended :
    ∀ (romanize : String → String) (v : Option String) (s : String),
      Translate.pyNormalize v = some s →
      (Translate.translate_make romanize v).isSome = true ∧
      (Translate.translate_color romanize v).isSome = true := by
  intro romanize v s h
  constructor
  · simp only [Translate.translate_make, h]
    repeat' split
    all_goals simp
  · simp only [Translate.translate_color, h]
    repeat' split
    all_goals simp

/-- Witness for C9 amended at a concrete normalizable input. -/
theorem translator_nonnull_amended_witness :
    (Translate.translate_make (fun s => s) (some "Toyota")).isSome = true ∧
    (Translate.translate_color (fun s => s) (some "Toyota")).isSome = true :=
  translator_nonnull_amended (fun s => s) (some "Toyota") "Toyota" (by decide)

end CarResearch

namespace CarResearch

open CarResearch.Parse

/-- Evaluation helper: `_parse_manyen_text_to_jpy` on a text whose manyen
search yields the exact value `n` that survives sanitization. -/
theorem parse_manyen_eval (s : String) (q : ℚ) (n : ℤ)
    (hne : ¬ s = "")
    (hs : manyenSearch (manyenNormalize s) = some q)
    (hq : q * (MANYEN_MULTIPLIER : ℚ) = (n : ℚ))
    (hn : sanitize_price_jpy (some n) = some n) :
    parse_manyen_text_to_jpy (some s) = some n := by
  simp only [parse_manyen_text_to_jpy, hne, if_false, hs, hq, bankerRound_intCast]
  exact hn

/-- `80.0万円` parses to 800,000 JPY. -/
theorem parse_manyen_eval_80 : parse_manyen_text_to_jpy (some "80.0万円") = some 800000 := by
  have hd : digitsToNat ['8', '0'] = 80 := by decide
  have hd0 : digitsToNat ['0'] = 0 := by decide
  refine parse_manyen_eval _ (decimalToRat ['8', '0'] ['0']) 800000 (by decide) rfl ?_ (by decide)
  simp only [decimalToRat, hd, hd0, MANYEN_MULTIPLIER]
  norm_num

/-- `70.0万円` parses to 700,000 JPY. -/
theorem parse_manyen_eval_70 : parse_manyen_text_to_jpy (some "70.0万円") = some 700000 := by
  have hd : digitsToNat ['7', '0'] = 70 := by decide
  have hd0 : digitsToNat ['0'] = 0 := by decide
  refine parse_manyen_eval _ (decimalToRat ['7', '0'] ['0']) 700000 (by decide) rfl ?_ (by decide)
  simp only [decimalToRat, hd, hd0, MANYEN_MULTIPLIER]
  norm_num

/-- C1: on an available page (negative unavailability check), if no
recognizable 4-digit year is found in the spec boxes the parse returns a
`ParseFailure` with `error_type="missing_year"` (not flagged unavailable),
and every returned `ListingData` carries an integer year. -/
theorem year_mandatory (romanize : String → String) (soup : Soup)
    (url eid furl : String) (rate : ℚ) (now : ℤ) :
    (check_listing_unavailable soup furl = false →
     (extract_year_from_spec_boxes soup.specBoxes).1 = none →
     ∃ f, parse_listing_html romanize soup url eid furl rate now = .failure f ∧
       f.error_type = "missing_year" ∧ f.unavailable = false) ∧
    (∀ ld, parse_listing_html romanize soup url eid furl rate now = .listing ld →
      ∃ y : ℤ, ld.year = some y) := by
  constructor
  · intro hc hy
    have heq : parse_listing_html romanize soup url eid furl rate now =
        .failure { error_type := "missing_year",
                   message := missingYearMessage
                     (extract_year_from_spec_boxes soup.specBoxes).2,
                   debug_snippet := some (soup.raw.take 800) } := by
      simp only [parse_listing_html, hc, Bool.false_eq_true, if_false, hy]
    exact ⟨_, heq, rfl, rfl⟩
  · intro ld h
    obtain ⟨-, hyear, hyne, -⟩ :=
      parse_listing_ok_fields romanize soup url eid furl rate now ld h
    cases hv : ld.year with
    | none => exact absurd hv hyne
    | some y => exact ⟨y, rfl⟩

/-- Witness for C1: a concrete available page with no year spec box fails
with `missing_year`. -/
theorem year_mandatory_witness :
    ∃ f, parse_listing_html (fun s => s)
        ⟨"<html>", "some page text", [⟨some "色", some "白"⟩], [], [], none, none,
         none, none, none, none, none⟩
        "u" "e" "f" 1 0 = .failure f ∧
      f.error_type = "missing_year" ∧ f.unavailable = false :=
  (year_mandatory (fun s => s)
    ⟨"<html>", "some page text", [⟨some "色", some "白"⟩], [], [], none, none,
     none, none, none, none, none⟩
    "u" "e" "f" 1 0).1 (by decide) (by decide)

/-- C2: on a successfully parsed page, a total price strictly below the
base price is dropped (both JPY and RUB become `None`), a consistent total
is kept, and in every returned listing the total is at least the base
price whenever both are present. -/
theorem total_price_consistency (romanize : String → String) (soup : Soup)
    (url eid furl : String) (rate : ℚ) (now : ℤ) (ld : ListingData)
    (h : parse_listing_html romanize soup url eid furl rate now = .listing ld) :
    (∀ p t, (parse_base_price_jpy soup).1 = some p →
      parse_total_price_jpy soup = some t →
      (t < p → ld.total_price_jpy = none ∧ ld.total_price_rub = none) ∧
      (p ≤ t → ld.total_price_jpy = some t)) ∧
    (∀ p t, ld.price_jpy = some p → ld.total_price_jpy = some t → p ≤ t) := by
  obtain ⟨-, -, -, hpj, htj, -, htr⟩ :=
    parse_listing_ok_fields romanize soup url eid furl rate now ld h
  constructor
  · intro p t hb ht
    constructor
    · intro hlt
      have h1 : ld.total_price_jpy = none := by
        rw [htj, hb, ht]
        simp [hlt]
      refine ⟨h1, ?_⟩
      rw [htr, h1]
    · intro hle
      rw [htj, hb, ht]
      simp [not_lt.mpr hle]
  · intro p t hp ht
    by_contra hcon
    push_neg at hcon
    rw [hpj] at hp
    rw [htj, hp] at ht
    cases htot : parse_total_price_jpy soup with
    | none =>
      rw [htot] at ht
      simp at ht
    | some t0 =>
      rw [htot] at ht
      have ht' : (if t0 < p then (none : Option ℤ) else some t0) = some t := ht
      by_cases h0 : t0 < p
      · rw [if_pos h0] at ht'
        exact Option.noConfusion ht'
      · rw [if_neg h0] at ht'
        have : t0 = t := by injection ht'
        omega
end CarResearch

namespace CarResearch

open CarResearch.Parse

/-- Witness for C2 at a concrete page with base price 80.0万円 and
inconsistent total price 70.0万円: the total is dropped. -/
theorem total_price_consistency_witness :
    ∃ ld, parse_listing_html (fun s => s)
        ⟨"<html>", "body text", [⟨some "年式", some "2018"⟩], [], [],
         some "Toyota Prius S", none, some ⟨"80.0万円", none⟩,
         some ⟨"70.0万円", none⟩, none, none, none⟩
        "u" "e" "f" 1 0 = ParseResult.listing ld ∧
      ld.total_price_jpy = none ∧ ld.total_price_rub = none := by
  have hb : (parse_base_price_jpy
      ⟨"<html>", "body text", [⟨some "年式", some "2018"⟩], [], [],
       some "Toyota Prius S", none, some ⟨"80.0万円", none⟩,
       some ⟨"70.0万円", none⟩, none, none, none⟩).1 = some 800000 := by
    have hm : priceMarkerHit "80.0万円" = false := by decide
    have hpt : price_node_text ⟨"80.0万円", none⟩ = some "80.0万円" := by decide
    simp only [parse_base_price_jpy, hpt, hm, parse_manyen_eval_80,
      Bool.false_eq_true, if_false]
  have ht : parse_total_price_jpy
      ⟨"<html>", "body text", [⟨some "年式", some "2018"⟩], [], [],
       some "Toyota Prius S", none, some ⟨"80.0万円", none⟩,
       some ⟨"70.0万円", none⟩, none, none, none⟩ = some 700000 := by
    have hm : priceMarkerHit "70.0万円" = false := by decide
    have hpt : price_node_text ⟨"70.0万円", none⟩ = some "70.0万円" := by decide
    simp only [parse_total_price_jpy, hpt, hm, parse_manyen_eval_70,
      Bool.false_eq_true, if_false]
  refine ⟨_, rfl, ?_⟩
  exact ((total_price_consistency (fun s => s)
    ⟨"<html>", "body text", [⟨some "年式", some "2018"⟩], [], [],
     some "Toyota Prius S", none, some ⟨"80.0万円", none⟩,
     some ⟨"70.0万円", none⟩, none, none, none⟩
    "u" "e" "f" 1 0 _ rfl).1 800000 700000 hb ht).1 (by decide)

end CarResearch

namespace CarResearch

/-- `_touch_discovered` never removes a row: it only inserts or updates. -/
theorem touch_discovered_keeps (sourceName : String)
    (cands : List Sitemap.ListingCandidate) (now : ℤ) :
    ∀ (s : Worker.Store) (k : String × String),
      Worker.touch_discovered sourceName cands now s k = none → s k = none := by
  induction cands with
  | nil => intro s k h; exact h
  | cons c rest ih =>
    intro s k h
    have h2 : Worker.touchOne sourceName now s c k = none :=
      ih (Worker.touchOne sourceName now s c) k h
    unfold Worker.touchOne at h2
    by_cases hk : k = (sourceName, c.external_id)
    · rw [if_pos hk] at h2
      rw [hk] at h2 ⊢
      cases hs : s (sourceName, c.external_id) with
      | none => rfl
      | some old => rw [hs] at h2; exact Option.noConfusion h2
    · rwa [if_neg hk] at h2

/-- `_upsert_listings` never removes a row. -/
theorem upsert_listings_keeps (sourceName : String)
    (rows : List Parse.ListingData) (now : ℤ) :
    ∀ (s : Worker.Store) (k : String × String),
      Worker.upsert_listings sourceName rows now s k = none → s k = none := by
  induction rows with
  | nil => intro s k h; exact h
  | cons r rest ih =>
    intro s k h
    have h2 : Worker.upsertRow s (Worker.listingToRow sourceName r now) k = none :=
      ih (Worker.upsertRow s (Worker.listingToRow sourceName r now)) k h
    unfold Worker.upsertRow at h2
    by_cases hk : k = ((Worker.listingToRow sourceName r now).source,
        (Worker.listingToRow sourceName r now).external_id)
    · rw [if_pos hk] at h2
      exact Option.noConfusion h2
    · rwa [if_neg hk] at h2

/-- C4: no reconciler step deletes an active row — a row can only vanish
through the retention delete of `_cleanup_stale`, whose filter requires
the row (in its state at delete time, i.e. after the same sweep's
deactivation pass) to have `is_active = False` and `last_seen_at` older
than the deletion cutoff. -/
theorem never_delete_active_row :
    ∀ (s s' : Worker.Store), Worker.ReconcilerStep s s' →
    ∀ (k : String × String) (r : Worker.Row), s k = some r → s' k = none →
    ∃ sourceName now deactivateBefore deleteBefore,
      s' = Worker.cleanup_stale sourceName now deactivateBefore deleteBefore s ∧
      (Worker.deactivateStaleRow sourceName now deactivateBefore r).is_active = false ∧
      (Worker.deactivateStaleRow sourceName now deactivateBefore r).last_seen_at
        < deleteBefore := by
  intro s s' hstep k r hk hnone
  cases hstep with
  | touch sourceName cands now s =>
    rw [touch_discovered_keeps sourceName cands now s k hnone] at hk
    exact Option.noConfusion hk
  | normalize romanize sourceName s =>
    exfalso
    unfold Worker.normalize_existing_translations at hnone
    rw [hk] at hnone
    have hnone' : (if r.source = sourceName ∧
        (Worker.containsDbCJK r.maker || Worker.containsDbCJK r.model ||
          Worker.containsDbCJK ((r.color).getD "")) = true then
        some { r with
          maker := (Translate.translate_make romanize (some r.maker)).getD r.maker,
          model := (Translate.translate_model romanize (some r.model)).getD r.model,
          color := match r.color with
            | some c =>
              if c = "" then some c
              else Translate.translate_color romanize (some c)
            | none => none }
      else some r) = none := hnone
    by_cases hc : r.source = sourceName ∧
        (Worker.containsDbCJK r.maker || Worker.containsDbCJK r.model ||
          Worker.containsDbCJK ((r.color).getD "")) = true
    · rw [if_pos hc] at hnone'
      exact Option.noConfusion hnone'
    · rw [if_neg hc] at hnone'
      exact Option.noConfusion hnone'
  | upsert sourceName rows now s =>
    rw [upsert_listings_keeps sourceName rows now s k hnone] at hk
    exact Option.noConfusion hk
  | markUnavailable sourceName ids now s =>
    exfalso
    unfold Worker.mark_unavailable at hnone
    rw [hk] at hnone
    have hnone' : (if r.source = sourceName ∧ ids.contains r.external_id then
        some { r with is_active := false, deleted_at := some now, last_seen_at := now }
        else some r) = none := hnone
    by_cases hc : r.source = sourceName ∧ ids.contains r.external_id
    · rw [if_pos hc] at hnone'
      exact Option.noConfusion hnone'
    · rw [if_neg hc] at hnone'
      exact Option.noConfusion hnone'
  | cleanup sourceName now deactivateBefore deleteBefore s =>
    refine ⟨sourceName, now, deactivateBefore, deleteBefore, rfl, ?_⟩
    unfold Worker.cleanup_stale at hnone
    rw [hk] at hnone
    have hnone' : (if Worker.deleteStaleHits sourceName deleteBefore
        (Worker.deactivateStaleRow sourceName now deactivateBefore r) then none
        else some (Worker.deactivateStaleRow sourceName now deactivateBefore r))
        = none := hnone
    by_cases hd : Worker.deleteStaleHits sourceName deleteBefore
        (Worker.deactivateStaleRow sourceName now deactivateBefore r)
    · exact ⟨hd.2.1, hd.2.2⟩
    · rw [if_neg hd] at hnone'
      exact Option.noConfusion hnone'

end CarResearch

namespace CarResearch

/-- Witness for C4: a concrete cleanup step deleting a long-inactive row,
whose state at delete time is inactive and older than the cutoff. -/
theorem never_delete_active_row_witness :
    ∃ sourceName now deactivateBefore deleteBefore,
      Worker.cleanup_stale "carsensor" 100 50 40
        (fun k => if k = ("carsensor", "A") then
          some { source := "carsensor", external_id := "A", url := "u",
                 maker := "Toyota", model := "Prius", grade := none, color := none,
                 year := none, mileage_km := none, price_jpy := none,
                 price_rub := none, total_price_jpy := none,
                 total_price_rub := none, prefecture := none, shop_name := none,
                 shop_address := none, shop_phone := none, transmission := none,
                 drive_type := none, engine_cc := none, fuel := none,
                 steering := none, body_type := none, scraped_at := 0,
                 last_seen_at := 0, is_active := false, deleted_at := some 1 }
          else none) =
      Worker.cleanup_stale sourceName now deactivateBefore deleteBefore
        (fun k => if k = ("carsensor", "A") then
          some { source := "carsensor", external_id := "A", url := "u",
                 maker := "Toyota", model := "Prius", grade := none, color := none,
                 year := none, mileage_km := none, price_jpy := none,
                 price_rub := none, total_price_jpy := none,
                 total_price_rub := none, prefecture := none, shop_name := none,
                 shop_address := none, shop_phone := none, transmission := none,
                 drive_type := none, engine_cc := none, fuel := none,
                 steering := none, body_type := none, scraped_at := 0,
                 last_seen_at := 0, is_active := false, deleted_at := some 1 }
          else none) ∧
      (Worker.deactivateStaleRow sourceName now deactivateBefore
        { source := "carsensor", external_id := "A", url := "u",
          maker := "Toyota", model := "Prius", grade := none, color := none,
          year := none, mileage_km := none, price_jpy := none, price_rub := none,
          total_price_jpy := none, total_price_rub := none, prefecture := none,
          shop_name := none, shop_address := none, shop_phone := none,
          transmission := none, drive_type := none, engine_cc := none,
          fuel := none, steering := none, body_type := none, scraped_at := 0,
          last_seen_at := 0, is_active := false,
          deleted_at := some 1 }).is_active = false ∧
      (Worker.deactivateStaleRow sourceName now deactivateBefore
        { source := "carsensor", external_id := "A", url := "u",
          maker := "Toyota", model := "Prius", grade := none, color := none,
          year := none, mileage_km := none, price_jpy := none, price_rub := none,
          total_price_jpy := none, total_price_rub := none, prefecture := none,
          shop_name := none, shop_address := none, shop_phone := none,
          transmission := none, drive_type := none, engine_cc := none,
          fuel := none, steering := none, body_type := none, scraped_at := 0,
          last_seen_at := 0, is_active := false,
          deleted_at := some 1 }).last_seen_at < deleteBefore :=
  never_delete_active_row _ _
    (Worker.ReconcilerStep.cleanup "carsensor" 100 50 40 _)
    ("carsensor", "A") _ rfl rfl

end CarResearch

namespace CarResearch

/-- C10: `_mark_unavailable` maps every stored row of the source whose
external id was reported unavailable to the same row with
`is_active=False`, `deleted_at=now` and `last_seen_at=now` (so the
retention clock restarts at deactivation time), leaving every descriptive
field unchanged; rows not matching are left untouched, and no row is
removed. -/
theorem mark_unavailable_frame (sourceName : String) (ids : List String)
    (now : ℤ) (s : Worker.Store) (k : String × String) (r : Worker.Row)
    (h : s k = some r) :
    ∃ r', Worker.mark_unavailable sourceName ids now s k = some r' ∧
      ((r.source = sourceName ∧ ids.contains r.external_id) →
        r'.is_active = false ∧ r'.deleted_at = some now ∧
        r'.last_seen_at = now ∧
        r'.source = r.source ∧ r'.external_id = r.external_id ∧
        r'.url = r.url ∧ r'.maker = r.maker ∧ r'.model = r.model ∧
        r'.grade = r.grade ∧ r'.color = r.color ∧ r'.year = r.year ∧
        r'.mileage_km = r.mileage_km ∧ r'.price_jpy = r.price_jpy ∧
        r'.price_rub = r.price_rub ∧ r'.total_price_jpy = r.total_price_jpy ∧
        r'.total_price_rub = r.total_price_rub ∧
        r'.prefecture = r.prefecture ∧ r'.shop_name = r.shop_name ∧
        r'.shop_address = r.shop_address ∧ r'.shop_phone = r.shop_phone ∧
        r'.transmission = r.transmission ∧ r'.drive_type = r.drive_type ∧
        r'.engine_cc = r.engine_cc ∧ r'.fuel = r.fuel ∧
        r'.steering = r.steering ∧ r'.body_type = r.body_type ∧
        r'.scraped_at = r.scraped_at) ∧
      (¬(r.source = sourceName ∧ ids.contains r.external_id) → r' = r) := by
  have heq : Worker.mark_unavailable sourceName ids now s k =
      (if r.source = sourceName ∧ ids.contains r.external_id then
        some { r with is_active := false, deleted_at := some now,
                      last_seen_at := now }
        else some r) := by
    unfold Worker.mark_unavailable
    rw [h]
  by_cases hc : r.source = sourceName ∧ ids.contains r.external_id
  · rw [if_pos hc] at heq
    refine ⟨_, heq, fun _ => ?_, fun hn => absurd hc hn⟩
    refine ⟨rfl, rfl, rfl, rfl, rfl, rfl, rfl, rfl, rfl, rfl, rfl, rfl, rfl,
      rfl, rfl, rfl, rfl, rfl, rfl, rfl, rfl, rfl, rfl, rfl, rfl, rfl, rfl⟩
  · rw [if_neg hc] at heq
    exact ⟨r, heq, fun hcc => absurd hcc hc, fun _ => rfl⟩

/-- Witness for C10 at a concrete matching row. -/
theorem mark_unavailable_frame_witness :
    ∃ r', Worker.mark_unavailable "carsensor" ["A1"] 100
        (fun k => if k = ("carsensor", "A1") then
          some { source := "carsensor", external_id := "A1", url := "u",
                 maker := "Toyota", model := "Prius", grade := none, color := none,
                 year := some 2018, mileage_km := none, price_jpy := some 800000,
                 price_rub := none, total_price_jpy := none,
                 total_price_rub := none, prefecture := none, shop_name := none,
                 shop_address := none, shop_phone := none, transmission := none,
                 drive_type := none, engine_cc := none, fuel := none,
                 steering := none, body_type := none, scraped_at := 3,
                 last_seen_at := 5, is_active := true, deleted_at := none }
          else none)
        ("carsensor", "A1") = some r' ∧
      r'.is_active = false ∧ r'.deleted_at = some 100 ∧ r'.last_seen_at = 100 ∧
      r'.maker = "Toyota" ∧ r'.price_jpy = some 800000 := by
  obtain ⟨r', heq, himp, -⟩ := mark_unavailable_frame "carsensor" ["A1"] 100
    (fun k => if k = ("carsensor", "A1") then
      some { source := "carsensor", external_id := "A1", url := "u",
             maker := "Toyota", model := "Prius", grade := none, color := none,
             year := some 2018, mileage_km := none, price_jpy := some 800000,
             price_rub := none, total_price_jpy := none,
             total_price_rub := none, prefecture := none, shop_name := none,
             shop_address := none, shop_phone := none, transmission := none,
             drive_type := none, engine_cc := none, fuel := none,
             steering := none, body_type := none, scraped_at := 3,
             last_seen_at := 5, is_active := true, deleted_at := none }
      else none)
    ("carsensor", "A1") _ rfl
  obtain ⟨h1, h2, h3, -, -, -, h7, -, -, -, -, -, h13, -⟩ := himp (by decide)
  exact ⟨r', heq, h1, h2, h3, h7, h13⟩

end CarResearch

namespace CarResearch

/-- C8: a GET whose first attempt yields an HTTP 4xx response other than a
404-with-`allow_404` fails immediately with `error_kind="http_4xx"` and
that status code, consuming exactly one attempt (no retries, no host
fallback); a 404 with `allow_404` set is returned as a success after the
same single attempt. -/
theorem http_4xx_fails_immediately :
    (∀ (transport : String → ℕ → Net.AttemptOutcome) (url : String)
       (allow404 : Bool) (maxRetries st : ℕ) (enc app : Option String),
      transport url 1 = .response st enc app → 400 ≤ st → st < 500 →
      ¬(st = 404 ∧ allow404 = true) → 1 ≤ maxRetries →
      Net.client_get transport url allow404 maxRetries =
        (.error ⟨"HTTP " ++ toString st, url, some st, false, some "http_4xx"⟩,
         1)) ∧
    (∀ (transport : String → ℕ → Net.AttemptOutcome) (url : String)
       (maxRetries : ℕ) (enc app : Option String),
      transport url 1 = .response 404 enc app → 1 ≤ maxRetries →
      Net.client_get transport url true maxRetries = (.ok ⟨404, enc⟩, 1)) := by
  constructor
  · intro transport url allow404 maxRetries st enc app htr h400 h500 h404 hmax
    cases maxRetries with
    | zero => omega
    | succ m =>
      have hgo : Net.requestGo (transport url) url allow404 (m + 1) (m + 1) 0 none =
          (.error ⟨"HTTP " ++ toString st, url, some st, false, some "http_4xx"⟩,
           1) := by
        simp only [Net.requestGo, Nat.zero_add, htr]
        rw [if_neg h404, if_neg (by omega), if_pos h400]
      unfold Net.client_get Net.request_with_retries
      rw [hgo]
      simp
  · intro transport url maxRetries enc app htr hmax
    cases maxRetries with
    | zero => omega
    | succ m =>
      have hgo : Net.requestGo (transport url) url true (m + 1) (m + 1) 0 none =
          (.ok ⟨404, enc⟩, 1) := by
        simp only [Net.requestGo, Nat.zero_add, htr]
        simp
      unfold Net.client_get Net.request_with_retries
      rw [hgo]

/-- Witness for C8: a 403 on the first attempt, and a 404 with
`allow_404`. -/
theorem http_4xx_fails_immediately_witness :
    Net.client_get (fun _ _ => .response 403 none none) "u" false 3 =
      (.error ⟨"HTTP " ++ toString 403, "u", some 403, false, some "http_4xx"⟩,
       1) ∧
    Net.client_get (fun _ _ => .response 404 (some "utf-8") none) "u" true 3 =
      (.ok ⟨404, some "utf-8"⟩, 1) :=
  ⟨http_4xx_fails_immediately.1 (fun _ _ => .response 403 none none) "u" false 3
      403 none none rfl (by decide) (by decide) (by decide) (by decide),
   http_4xx_fails_immediately.2 (fun _ _ => .response 404 (some "utf-8") none)
      "u" 3 (some "utf-8") none rfl (by decide)⟩

end CarResearch

namespace CarResearch

theorem alookup_append_single_ne {α : Type} (m : List (String × α)) (k u : String)
    (v : α) (h : k ≠ u) : alookup (m ++ [(k, v)]) u = alookup m u := by
  induction m with
  | nil => simp only [List.nil_append, alookup, if_neg h]
  | cons p rest ih =>
    obtain ⟨a, b⟩ := p
    simp only [List.cons_append, alookup]
    by_cases hau : a = u
    · rw [if_pos hau, if_pos hau]
    · rw [if_neg hau, if_neg hau]
      exact ih

theorem alookup_append_single_self {α : Type} (m : List (String × α)) (k : String)
    (v : α) (h : alookup m k = none) : alookup (m ++ [(k, v)]) k = some v := by
  induction m with
  | nil => simp [alookup]
  | cons p rest ih =>
    obtain ⟨a, b⟩ := p
    simp only [alookup] at h
    simp only [List.cons_append, alookup]
    by_cases hau : a = k
    · rw [if_pos hau] at h
      exact Option.noConfusion h
    · rw [if_neg hau] at h ⊢
      exact ih h

theorem areplace_lookup_ne {α : Type} (m : List (String × α)) (k u : String)
    (c : α) (h : u ≠ k) : alookup (areplace m k c) u = alookup m u := by
  induction m with
  | nil => rfl
  | cons p rest ih =>
    obtain ⟨a, b⟩ := p
    simp only [areplace]
    by_cases hak : a = k
    · rw [if_pos hak]
      simp only [alookup]
      rw [if_neg (by rw [hak]; exact fun he => h he.symm),
          if_neg (by rw [hak]; exact fun he => h he.symm)]
    · rw [if_neg hak]
      simp only [alookup]
      by_cases hau : a = u
      · rw [if_pos hau, if_pos hau]
      · rw [if_neg hau, if_neg hau]
        exact ih

theorem areplace_lookup_self {α : Type} (m : List (String × α)) (k : String)
    (c w : α) (h : alookup m k = some w) : alookup (areplace m k c) k = some c := by
  induction m with
  | nil => exact Option.noConfusion h
  | cons p rest ih =>
    obtain ⟨a, b⟩ := p
    simp only [alookup] at h
    simp only [areplace]
    by_cases hak : a = k
    · rw [if_pos hak]
      simp only [alookup, if_pos hak]
    · rw [if_neg hak]
      simp only [alookup, if_neg hak]
      rw [if_neg hak] at h
      exact ih h

theorem areplace_keys {α : Type} (m : List (String × α)) (k : String) (c : α) :
    (areplace m k c).map Prod.fst = m.map Prod.fst := by
  induction m with
  | nil => rfl
  | cons p rest ih =>
    obtain ⟨a, b⟩ := p
    simp only [areplace]
    by_cases hak : a = k
    · rw [if_pos hak]
      simp [hak]
    · rw [if_neg hak]
      simp only [List.map_cons, ih]

theorem alookup_none_iff {α : Type} (m : List (String × α)) (u : String) :
    alookup m u = none ↔ u ∉ m.map Prod.fst := by
  induction m with
  | nil => simp [alookup]
  | cons p rest ih =>
    obtain ⟨a, b⟩ := p
    simp only [alookup, List.map_cons, List.mem_cons]
    by_cases hau : a = u
    · rw [if_pos hau]
      simp [hau]
    · rw [if_neg hau]
      rw [ih]
      constructor
      · intro hn hor
        cases hor with
        | inl he => exact hau he.symm
        | inr hm => exact hn hm
      · intro hn hm
        exact hn (Or.inr hm)

theorem count_of_nodup_lookup {α : Type} (m : List (String × α)) (u : String)
    (w : α) (hnd : (m.map Prod.fst).Nodup) (h : alookup m u = some w) :
    m.countP (fun e => decide (e.1 = u)) = 1 := by
  induction m with
  | nil => exact Option.noConfusion h
  | cons p rest ih =>
    obtain ⟨a, b⟩ := p
    simp only [List.map_cons, List.nodup_cons] at hnd
    simp only [alookup] at h
    by_cases hau : a = u
    · rw [if_pos hau] at h
      rw [List.countP_cons]
      have hz : rest.countP (fun e => decide (e.1 = u)) = 0 := by
        rw [List.countP_eq_zero]
        intro e he hdec
        have : e.1 = u := of_decide_eq_true hdec
        exact hnd.1 (by rw [← hau] at this; rw [← this]; exact List.mem_map_of_mem Prod.fst he)
      simp [hz, hau]
    · rw [if_neg hau] at h
      rw [List.countP_cons]
      have := ih hnd.2 h
      simp [this, hau]

/-- The lookup at `c.url` after one dedup insertion: a new entry, or the
later of the existing and incoming candidate. -/
theorem dedupInsert_lookup_self (acc : List (String × Sitemap.ListingCandidate))
    (c : Sitemap.ListingCandidate) :
    alookup (Sitemap.dedupInsert acc c) c.url =
      (match alookup acc c.url with
       | none => some c
       | some e => if e.lastmod < c.lastmod then some c else some e) := by
  cases hl : alookup acc c.url with
  | none =>
    have hred : Sitemap.dedupInsert acc c = acc ++ [(c.url, c)] := by
      unfold Sitemap.dedupInsert
      rw [hl]
    rw [hred]
    exact alookup_append_single_self acc c.url c hl
  | some e =>
    have hred : Sitemap.dedupInsert acc c =
        if e.lastmod < c.lastmod then areplace acc c.url c else acc := by
      unfold Sitemap.dedupInsert
      rw [hl]
    show alookup (Sitemap.dedupInsert acc c) c.url =
      (if e.lastmod < c.lastmod then some c else some e)
    rw [hred]
    by_cases hlt : e.lastmod < c.lastmod
    · rw [if_pos hlt, if_pos hlt]
      exact areplace_lookup_self acc c.url c e hl
    · rw [if_neg hlt, if_neg hlt]
      exact hl

theorem dedupInsert_lookup_ne (acc : List (String × Sitemap.ListingCandidate))
    (c : Sitemap.ListingCandidate) (u : String) (h : u ≠ c.url) :
    alookup (Sitemap.dedupInsert acc c) u = alookup acc u := by
  cases hl : alookup acc c.url with
  | none =>
    have hred : Sitemap.dedupInsert acc c = acc ++ [(c.url, c)] := by
      unfold Sitemap.dedupInsert
      rw [hl]
    rw [hred]
    exact alookup_append_single_ne acc c.url u c (fun he => h he.symm)
  | some e =>
    have hred : Sitemap.dedupInsert acc c =
        if e.lastmod < c.lastmod then areplace acc c.url c else acc := by
      unfold Sitemap.dedupInsert
      rw [hl]
    rw [hred]
    by_cases hlt : e.lastmod < c.lastmod
    · rw [if_pos hlt]
      exact areplace_lookup_ne acc c.url u c h
    · rw [if_neg hlt]

theorem dedupInsert_keys_nodup (acc : List (String × Sitemap.ListingCandidate))
    (c : Sitemap.ListingCandidate) (hnd : (acc.map Prod.fst).Nodup) :
    ((Sitemap.dedupInsert acc c).map Prod.fst).Nodup := by
  cases hl : alookup acc c.url with
  | none =>
    have hred : Sitemap.dedupInsert acc c = acc ++ [(c.url, c)] := by
      unfold Sitemap.dedupInsert
      rw [hl]
    rw [hred, List.map_append]
    simp only [List.map_cons, List.map_nil]
    rw [List.nodup_append]
    refine ⟨hnd, List.nodup_singleton _, ?_⟩
    intro x hx hx2
    simp only [List.mem_singleton] at hx2
    rw [hx2] at hx
    exact ((alookup_none_iff acc c.url).mp hl) hx
  | some e =>
    have hred : Sitemap.dedupInsert acc c =
        if e.lastmod < c.lastmod then areplace acc c.url c else acc := by
      unfold Sitemap.dedupInsert
      rw [hl]
    rw [hred]
    by_cases hlt : e.lastmod < c.lastmod
    · rw [if_pos hlt, areplace_keys]
      exact hnd
    · rw [if_neg hlt]
      exact hnd

theorem dedup_fold_keys_nodup (l : List Sitemap.ListingCandidate) :
    ∀ acc : List (String × Sitemap.ListingCandidate),
    (acc.map Prod.fst).Nodup →
    (((l.foldl Sitemap.dedupInsert acc)).map Prod.fst).Nodup := by
  induction l with
  | nil => intro acc h; exact h
  | cons c rest ih =>
    intro acc h
    exact ih (Sitemap.dedupInsert acc c) (dedupInsert_keys_nodup acc c h)

/-- Invariant run of the dedup fold when the only candidates at URL `u`
are `a` and the strictly later `b`: once all of `l` is processed the map
holds `b` at `u`. -/
theorem dedup_fold_ab (a b : Sitemap.ListingCandidate) (u : String)
    (hau : a.url = u) (hbu : b.url = u) (hab : a.lastmod < b.lastmod) :
    ∀ (l : List Sitemap.ListingCandidate)
      (acc : List (String × Sitemap.ListingCandidate)),
    (∀ c ∈ l, c.url = u → c = a ∨ c = b) →
    (alookup acc u = none ∨ alookup acc u = some a ∨ alookup acc u = some b) →
    (b ∈ l ∨ alookup acc u = some b) →
    alookup (l.foldl Sitemap.dedupInsert acc) u = some b := by
  intro l
  induction l with
  | nil =>
    intro acc honly hstate hb
    cases hb with
    | inl h => exact absurd h (List.not_mem_nil b)
    | inr h => exact h
  | cons c rest ih =>
    intro acc honly hstate hb
    show alookup (rest.foldl Sitemap.dedupInsert (Sitemap.dedupInsert acc c)) u = some b
    have honly' : ∀ d ∈ rest, d.url = u → d = a ∨ d = b :=
      fun d hd hdu => honly d (List.mem_cons_of_mem c hd) hdu
    by_cases hcu : c.url = u
    · have hcab : c = a ∨ c = b := honly c (List.mem_cons_self c rest) hcu
      have hself : alookup (Sitemap.dedupInsert acc c) u =
          (match alookup acc u with
           | none => some c
           | some e => if e.lastmod < c.lastmod then some c else some e) := by
        rw [← hcu]
        exact dedupInsert_lookup_self acc c
      cases hcab with
      | inl hca =>
        have hba : b ≠ c := by
          intro he
          have hba2 : b = a := he.trans hca
          rw [hba2] at hab
          exact lt_irrefl _ hab
        cases hstate with
        | inl h0 =>
          have hnew : alookup (Sitemap.dedupInsert acc c) u = some a := by
            rw [hself, h0, hca]
          have hbrest : b ∈ rest := by
            cases hb with
            | inl hbl =>
              cases List.mem_cons.mp hbl with
              | inl hbc => exact absurd hbc hba
              | inr h => exact h
            | inr hacc => exact absurd (h0.symm.trans hacc) (by simp)
          exact ih _ honly' (Or.inr (Or.inl hnew)) (Or.inl hbrest)
        | inr h1 =>
          cases h1 with
          | inl h2 =>
            have hnew : alookup (Sitemap.dedupInsert acc c) u = some a := by
              rw [hself, h2, hca]
              show (if a.lastmod < a.lastmod then some a else some a) = some a
              rw [if_neg (lt_irrefl _)]
            have hbrest : b ∈ rest := by
              cases hb with
              | inl hbl =>
                cases List.mem_cons.mp hbl with
                | inl hbc => exact absurd hbc hba
                | inr h => exact h
              | inr hacc =>
                exfalso
                have hae : a = b := by injection h2.symm.trans hacc
                rw [hae] at hab
                exact lt_irrefl _ hab
            exact ih _ honly' (Or.inr (Or.inl hnew)) (Or.inl hbrest)
          | inr h3 =>
            have hnew : alookup (Sitemap.dedupInsert acc c) u = some b := by
              rw [hself, h3, hca]
              show (if b.lastmod < a.lastmod then some a else some b) = some b
              rw [if_neg (not_lt.mpr (le_of_lt hab))]
            exact ih _ honly' (Or.inr (Or.inr hnew)) (Or.inr hnew)
      | inr hcb =>
        have hnew : alookup (Sitemap.dedupInsert acc c) u = some b := by
          rw [hself]
          cases hstate with
          | inl h0 =>
            rw [h0, hcb]
          | inr h1 =>
            cases h1 with
            | inl h2 =>
              rw [h2, hcb]
              show (if a.lastmod < b.lastmod then some b else some a) = some b
              rw [if_pos hab]
            | inr h3 =>
              rw [h3, hcb]
              show (if b.lastmod < b.lastmod then some b else some b) = some b
              rw [if_neg (lt_irrefl _)]
        exact ih _ honly' (Or.inr (Or.inr hnew)) (Or.inr hnew)
    · have hne : u ≠ c.url := fun he => hcu he.symm
      have hpres : alookup (Sitemap.dedupInsert acc c) u = alookup acc u :=
        dedupInsert_lookup_ne acc c u hne
      have hbrest : b ∈ rest ∨ alookup (Sitemap.dedupInsert acc c) u = some b := by
        cases hb with
        | inl hbl =>
          cases List.mem_cons.mp hbl with
          | inl hbc =>
            exfalso
            rw [hbc] at hbu
            exact hcu hbu
          | inr h => exact Or.inl h
        | inr hacc => exact Or.inr (by rw [hpres]; exact hacc)
      exact ih _ honly' (by rw [hpres]; exact hstate) hbrest

/-- C6: when the only sitemap entries carrying a given canonical URL are
two candidates with different `lastmod`, the discovery dedup map keeps
exactly one entry for that URL — the one with the later `lastmod`. -/
theorem dedup_keeps_latest (a b : Sitemap.ListingCandidate)
    (l : List Sitemap.ListingCandidate)
    (hurl : a.url = b.url) (hlt : a.lastmod < b.lastmod)
    (ha : a ∈ l) (hb : b ∈ l)
    (honly : ∀ c ∈ l, c.url = a.url → c = a ∨ c = b) :
    alookup (Sitemap.dedupByUrl l) a.url = some b ∧
    (Sitemap.dedupByUrl l).countP (fun e => decide (e.1 = a.url)) = 1 := by
  have h1 : alookup (Sitemap.dedupByUrl l) a.url = some b := by
    exact dedup_fold_ab a b a.url rfl hurl.symm hlt l [] honly (Or.inl rfl) (Or.inl hb)
  have h2 : ((Sitemap.dedupByUrl l).map Prod.fst).Nodup :=
    dedup_fold_keys_nodup l [] (by simp)
  exact ⟨h1, count_of_nodup_lookup _ _ _ h2 h1⟩

/-- Witness for C6: two entries for URL "U" with lastmod 1 and 5; the
dedup map keeps exactly the later one. -/
theorem dedup_keeps_latest_witness :
    alookup (Sitemap.dedupByUrl
        [⟨"e", "U", 1⟩, ⟨"e", "U", 5⟩]) "U" = some ⟨"e", "U", 5⟩ ∧
    (Sitemap.dedupByUrl [⟨"e", "U", 1⟩, ⟨"e", "U", 5⟩]).countP
        (fun e => decide (e.1 = "U")) = 1 :=
  dedup_keeps_latest ⟨"e", "U", 1⟩ ⟨"e", "U", 5⟩ [⟨"e", "U", 1⟩, ⟨"e", "U", 5⟩]
    rfl (by decide) (by decide) (by decide) (by decide)

end CarResearch

namespace CarResearch

theorem gmInsert_keys (g : List (String × List Sitemap.ListingCandidate))
    (m : String) (c : Sitemap.ListingCandidate) :
    (Select.gmInsert g m c).map Prod.fst =
      (if m ∈ g.map Prod.fst then g.map Prod.fst else g.map Prod.fst ++ [m]) := by
  induction g with
  | nil => simp [Select.gmInsert]
  | cons p rest ih =>
    obtain ⟨k, l⟩ := p
    simp only [Select.gmInsert]
    by_cases hk : k = m
    · rw [if_pos hk]
      simp [hk]
    · rw [if_neg hk]
      simp only [List.map_cons, ih]
      by_cases hm : m ∈ rest.map Prod.fst
      · rw [if_pos hm, if_pos (by simp [hm])]
      · rw [if_neg hm,
          if_neg (by
            simp only [List.map_cons, List.mem_cons]
            rintro (he | hm2)
            · exact hk he.symm
            · exact hm hm2)]
        simp

theorem groupByMake_fold_keys_nodup (makeOf : String → Option String)
    (pool : List Sitemap.ListingCandidate) :
    ∀ acc, (acc.1.map Prod.fst).Nodup →
      (((pool.foldl (Select.groupStep makeOf) acc)).1.map Prod.fst).Nodup := by
  induction pool with
  | nil => intro acc h; exact h
  | cons c rest ih =>
    intro acc h
    refine ih (Select.groupStep makeOf acc c) ?_
    unfold Select.groupStep
    cases makeOf c.url with
    | none => exact h
    | some m =>
      show ((Select.gmInsert acc.1 m c).map Prod.fst).Nodup
      rw [gmInsert_keys]
      by_cases hm : m ∈ acc.1.map Prod.fst
      · rw [if_pos hm]
        exact h
      · rw [if_neg hm]
        rw [List.nodup_append]
        refine ⟨h, List.nodup_singleton _, ?_⟩
        intro x hx hx2
        simp only [List.mem_singleton] at hx2
        rw [hx2] at hx
        exact hm hx

theorem groupByMake_keys_nodup (makeOf : String → Option String)
    (pool : List Sitemap.ListingCandidate) :
    (((Select.groupByMake makeOf pool).1).map Prod.fst).Nodup :=
  groupByMake_fold_keys_nodup makeOf pool ([], []) (by simp)

theorem insertSorted_perm (x : String) (l : List String) :
    (Select.insertSorted x l).Perm (x :: l) := by
  induction l with
  | nil => exact List.Perm.refl _
  | cons y rest ih =>
    simp only [Select.insertSorted]
    by_cases h : x ≤ y
    · rw [if_pos h]
    · rw [if_neg h]
      exact (List.Perm.cons y ih).trans (List.Perm.swap x y rest)

theorem sortStrings_perm (l : List String) : (Select.sortStrings l).Perm l := by
  induction l with
  | nil => exact List.Perm.refl _
  | cons x rest ih =>
    show (Select.insertSorted x (Select.sortStrings rest)).Perm (x :: rest)
    exact (insertSorted_perm x _).trans (List.Perm.cons x ih)

theorem alookup_mem_keys {α : Type} (g : List (String × α)) (m : String)
    (h : m ∈ g.map Prod.fst) : ∃ v, alookup g m = some v ∧ (m, v) ∈ g := by
  induction g with
  | nil => simp at h
  | cons p rest ih =>
    obtain ⟨k, l⟩ := p
    by_cases hk : k = m
    · subst hk
      exact ⟨l, by simp [alookup], List.mem_cons_self _ _⟩
    · simp only [List.map_cons, List.mem_cons] at h
      cases h with
      | inl he => exact absurd he.symm hk
      | inr hm =>
        obtain ⟨v, hv, hmem⟩ := ih hm
        exact ⟨v, by simp only [alookup, if_neg hk]; exact hv,
          List.mem_cons_of_mem _ hmem⟩

theorem gLook_cons (a : String) (l : List Sitemap.ListingCandidate)
    (rest : List (String × List Sitemap.ListingCandidate)) (k : String) :
    Select.gLook ((a, l) :: rest) k =
      (if a = k then l else Select.gLook rest k) := by
  show ((if a = k then some l else alookup rest k).getD []) =
    (if a = k then l else Select.gLook rest k)
  by_cases h : a = k
  · rw [if_pos h, if_pos h]
    rfl
  · rw [if_neg h, if_neg h]
    rfl

theorem gLook_gPop (g : List (String × List Sitemap.ListingCandidate))
    (m k : String) :
    Select.gLook (Select.gPop g m) k =
      (if k = m then (Select.gLook g m).tail else Select.gLook g k) := by
  induction g with
  | nil =>
    by_cases h : k = m <;> simp [Select.gLook, Select.gPop, alookup, h]
  | cons p rest ih =>
    obtain ⟨a, l⟩ := p
    simp only [Select.gPop]
    by_cases ham : a = m
    · rw [if_pos ham]
      simp only [gLook_cons]
      rw [if_pos ham]
      by_cases hak : a = k
      · rw [if_pos hak, if_pos hak, if_pos (hak.symm.trans ham)]
      · have hkm : ¬ k = m := fun he => hak (ham.trans he.symm)
        rw [if_neg hak, if_neg hak, if_neg hkm]
    · rw [if_neg ham]
      simp only [gLook_cons]
      rw [ih, if_neg ham]
      by_cases hak : a = k
      · have hkm : ¬ k = m := fun he => ham (hak.trans he)
        rw [if_pos hak, if_neg hkm, if_pos hak]
      · rw [if_neg hak, if_neg hak]

end CarResearch

namespace CarResearch

/-- One full round of the round-robin, when every make still below the
cap has a non-empty bucket and the target is not hit mid-round: every
make in the round list gains exactly one selected candidate, its bucket
shrinks by one, everything else is untouched, and the round reports
progress. -/
theorem onePass_round (maxL cap r : ℕ) (hr : r < cap) :
    ∀ (todo : List String) (st : Select.SelState) (prog : Bool),
    todo.Nodup →
    (∀ m ∈ todo, st.counter m = r) →
    (∀ m ∈ todo, cap - r ≤ (Select.gLook st.grouped m).length) →
    st.selected.length + todo.length ≤ maxL →
    ((Select.onePass maxL cap todo st prog).1.selected.length =
        st.selected.length + todo.length) ∧
    (∀ m ∈ todo, (Select.onePass maxL cap todo st prog).1.counter m = r + 1) ∧
    (∀ m ∈ todo,
      (Select.gLook (Select.onePass maxL cap todo st prog).1.grouped m).length + 1 =
        (Select.gLook st.grouped m).length) ∧
    (∀ m, m ∉ todo →
      (Select.onePass maxL cap todo st prog).1.counter m = st.counter m) ∧
    (∀ m, m ∉ todo →
      Select.gLook (Select.onePass maxL cap todo st prog).1.grouped m =
        Select.gLook st.grouped m) ∧
    (todo ≠ [] → (Select.onePass maxL cap todo st prog).2 = true) := by
  intro todo
  induction todo with
  | nil =>
    intro st prog _ _ _ _
    refine ⟨by simp [Select.onePass], by simp, by simp, ?_, ?_, by simp⟩
    · intro m _
      simp [Select.onePass]
    · intro m _
      simp [Select.onePass]
  | cons m rest ih =>
    intro st prog hnd h1 h2 h3
    obtain ⟨hmrest, hndrest⟩ := List.nodup_cons.mp hnd
    have hlt : ¬ (maxL ≤ st.selected.length) := by
      simp only [List.length_cons] at h3
      omega
    have hglen := h2 m (List.mem_cons_self m rest)
    have hcr : 1 ≤ cap - r := by omega
    obtain ⟨c, cs, hcs⟩ : ∃ c cs, Select.gLook st.grouped m = c :: cs := by
      cases hg : Select.gLook st.grouped m with
      | nil =>
        rw [hg] at hglen
        simp at hglen
        omega
      | cons c cs => exact ⟨c, cs, rfl⟩
    have hcnt : ¬ (cap ≤ st.counter m) := by
      rw [h1 m (List.mem_cons_self m rest)]
      omega
    have hstep : Select.onePass maxL cap (m :: rest) st prog =
        Select.onePass maxL cap rest
          { grouped := Select.gPop st.grouped m,
            counter := fun k => if k = m then st.counter m + 1 else st.counter k,
            selected := st.selected ++ [c] } true := by
      show (if maxL ≤ st.selected.length then (st, prog)
        else match Select.gLook st.grouped m with
          | [] => Select.onePass maxL cap rest st prog
          | c :: _ =>
            if cap ≤ st.counter m then Select.onePass maxL cap rest st prog
            else Select.onePass maxL cap rest
              { grouped := Select.gPop st.grouped m,
                counter := fun k => if k = m then st.counter m + 1 else st.counter k,
                selected := st.selected ++ [c] } true) = _
      rw [if_neg hlt, hcs]
      show (if cap ≤ st.counter m then Select.onePass maxL cap rest st prog
        else Select.onePass maxL cap rest
          { grouped := Select.gPop st.grouped m,
            counter := fun k => if k = m then st.counter m + 1 else st.counter k,
            selected := st.selected ++ [c] } true) = _
      rw [if_neg hcnt]
    have h1' : ∀ k ∈ rest,
        (fun k => if k = m then st.counter m + 1 else st.counter k) k = r := by
      intro k hk
      have hkm : ¬ k = m := fun he => hmrest (he ▸ hk)
      simp only [if_neg hkm]
      exact h1 k (List.mem_cons_of_mem m hk)
    have h2' : ∀ k ∈ rest,
        cap - r ≤ (Select.gLook (Select.gPop st.grouped m) k).length := by
      intro k hk
      have hkm : ¬ k = m := fun he => hmrest (he ▸ hk)
      rw [gLook_gPop, if_neg hkm]
      exact h2 k (List.mem_cons_of_mem m hk)
    have h3' : (st.selected ++ [c]).length + rest.length ≤ maxL := by
      simp only [List.length_append, List.length_singleton, List.length_cons,
        List.length_nil]
      simp only [List.length_cons] at h3
      omega
    obtain ⟨iL, iC, iG, iCo, iGo, iP⟩ := ih
      { grouped := Select.gPop st.grouped m,
        counter := fun k => if k = m then st.counter m + 1 else st.counter k,
        selected := st.selected ++ [c] } true hndrest h1' h2' h3'
    rw [hstep]
    refine ⟨?_, ?_, ?_, ?_, ?_, ?_⟩
    · rw [iL]
      show (st.selected ++ [c]).length + rest.length =
        st.selected.length + (m :: rest).length
      simp only [List.length_append, List.length_singleton, List.length_cons,
        List.length_nil]
      omega
    · intro k hk
      cases List.mem_cons.mp hk with
      | inl hkm =>
        subst hkm
        rw [iCo k hmrest]
        show (if k = k then st.counter k + 1 else st.counter k) = r + 1
        rw [if_pos rfl, h1 k (List.mem_cons_self k rest)]
      | inr hkr => exact iC k hkr
    · intro k hk
      cases List.mem_cons.mp hk with
      | inl hkm =>
        subst hkm
        rw [iGo k hmrest, gLook_gPop, if_pos rfl, hcs]
        simp
      | inr hkr =>
        rw [iG k hkr, gLook_gPop]
        have hkm : ¬ k = m := fun he => hmrest (he ▸ hkr)
        rw [if_neg hkm]
    · intro k hk
      have hkr : k ∉ rest := fun hr2 => hk (List.mem_cons_of_mem m hr2)
      have hkm : ¬ k = m := fun he => hk (he ▸ List.mem_cons_self m rest)
      rw [iCo k hkr]
      simp only [if_neg hkm]
    · intro k hk
      have hkr : k ∉ rest := fun hr2 => hk (List.mem_cons_of_mem m hr2)
      have hkm : ¬ k = m := fun he => hk (he ▸ List.mem_cons_self m rest)
      rw [iGo k hkr, gLook_gPop, if_neg hkm]
    · intro _
      by_cases hre : rest = []
      · subst hre
        rfl
      · exact iP hre

end CarResearch

namespace CarResearch

/-- Running the round-robin loop from round `r` with every counter at `r`,
every bucket holding at least `cap - r` candidates and `N * r` already
selected drives every counter to the cap and the selected count to the
target `N * cap`. -/
theorem selectLoop_reaches (cap N : ℕ) (hN : 0 < N) (makeOrder : List String)
    (hlen : makeOrder.length = N) (hnd : makeOrder.Nodup) :
    ∀ (d r fuel : ℕ) (st : Select.SelState),
    cap - r = d → r ≤ cap → d ≤ fuel →
    (∀ m ∈ makeOrder, st.counter m = r) →
    (∀ m ∈ makeOrder, cap - r ≤ (Select.gLook st.grouped m).length) →
    st.selected.length = N * r →
    (∀ m ∈ makeOrder,
      (Select.selectLoop (N * cap) cap makeOrder fuel st).counter m = cap) ∧
    (Select.selectLoop (N * cap) cap makeOrder fuel st).selected.length =
      N * cap := by
  intro d
  induction d with
  | zero =>
    intro r fuel st hd hrle _ h1 _ h3
    have hrc : r = cap := by omega
    subst hrc
    cases fuel with
    | zero => exact ⟨fun m hm => h1 m hm, h3⟩
    | succ f =>
      have hnlt : ¬ (st.selected.length < N * r) := by
        rw [h3]
        exact lt_irrefl _
      show (∀ m ∈ makeOrder,
          (if st.selected.length < N * r then
            (let p := Select.onePass (N * r) r makeOrder st false
             if p.2 then Select.selectLoop (N * r) r makeOrder f p.1 else p.1)
          else st).counter m = r) ∧
        (if st.selected.length < N * r then
          (let p := Select.onePass (N * r) r makeOrder st false
           if p.2 then Select.selectLoop (N * r) r makeOrder f p.1 else p.1)
        else st).selected.length = N * r
      rw [if_neg hnlt]
      exact ⟨fun m hm => h1 m hm, h3⟩
  | succ d ihd =>
    intro r fuel st hd hrle hfuel h1 h2 h3
    have hrlt : r < cap := by omega
    cases fuel with
    | zero => omega
    | succ f =>
      have hsel_lt : st.selected.length < N * cap := by
        rw [h3]
        have ha := Nat.mul_le_mul_left N (show r + 1 ≤ cap by omega)
        have hb : N * r + N = N * (r + 1) := (Nat.mul_succ N r).symm
        omega
      obtain ⟨oL, oC, oG, _, _, oP⟩ :=
        onePass_round (N * cap) cap r hrlt makeOrder st false hnd h1 h2
          (by
            rw [h3, hlen]
            calc N * r + N = N * (r + 1) := by rw [Nat.mul_succ]
              _ ≤ N * cap := Nat.mul_le_mul_left N (by omega))
      have hmne : makeOrder ≠ [] := by
        intro he
        rw [he] at hlen
        simp at hlen
        omega
      have hprog := oP hmne
      have hstep : Select.selectLoop (N * cap) cap makeOrder (f + 1) st =
          Select.selectLoop (N * cap) cap makeOrder f
            (Select.onePass (N * cap) cap makeOrder st false).1 := by
        show (if st.selected.length < N * cap then
            (let p := Select.onePass (N * cap) cap makeOrder st false
             if p.2 then Select.selectLoop (N * cap) cap makeOrder f p.1 else p.1)
          else st) = _
        rw [if_pos hsel_lt]
        show (if (Select.onePass (N * cap) cap makeOrder st false).2 then
            Select.selectLoop (N * cap) cap makeOrder f
              (Select.onePass (N * cap) cap makeOrder st false).1
          else (Select.onePass (N * cap) cap makeOrder st false).1) = _
        rw [hprog]
        simp
      rw [hstep]
      refine ihd (r + 1) f _ (by omega) (by omega) (by omega)
        (fun m hm => oC m hm) ?_ ?_
      · intro m hm
        have hG := oG m hm
        have h2m := h2 m hm
        omega
      · rw [oL, h3, hlen, Nat.mul_succ]

end CarResearch

namespace CarResearch

/-- C5: when every one of the N distinct known makes of the pool has at
least `per_make_cap` candidates and the target count is
`N * per_make_cap`, the selector's distribution gives exactly
`per_make_cap` to every make and exactly `target_count` candidates are
selected. -/
theorem selector_balanced (makeOf : String → Option String)
    (pool : List Sitemap.ListingCandidate) (cap : ℕ)
    (hcap : ∀ e ∈ (Select.groupByMake makeOf pool).1, cap ≤ e.2.length) :
    (∀ m ∈ (Select.groupByMake makeOf pool).1.map Prod.fst,
      (Select.select_candidates_by_make makeOf pool
        ((Select.groupByMake makeOf pool).1.length * cap) cap).2 m = cap) ∧
    (Select.select_candidates_by_make makeOf pool
        ((Select.groupByMake makeOf pool).1.length * cap) cap).1.length =
      (Select.groupByMake makeOf pool).1.length * cap := by
  by_cases hzero : (Select.groupByMake makeOf pool).1.length * cap = 0
  · have hres : Select.select_candidates_by_make makeOf pool
        ((Select.groupByMake makeOf pool).1.length * cap) cap =
        ([], fun _ => 0) := by
      rw [hzero]
      rfl
    constructor
    · intro m hm
      have hne : (Select.groupByMake makeOf pool).1.map Prod.fst ≠ [] :=
        List.ne_nil_of_mem hm
      have hpos : 0 < (Select.groupByMake makeOf pool).1.length := by
        have hp := List.length_pos.mpr hne
        rwa [List.length_map] at hp
      have hcap0 : cap = 0 := by
        rcases Nat.mul_eq_zero.mp hzero with h | h
        · omega
        · exact h
      rw [hres, hcap0]
    · rw [hres, hzero]
      rfl
  · have hperm := sortStrings_perm ((Select.groupByMake makeOf pool).1.map Prod.fst)
    have hknd := groupByMake_keys_nodup makeOf pool
    have hN : 0 < (Select.groupByMake makeOf pool).1.length :=
      Nat.pos_of_ne_zero (fun h => hzero (by rw [h, Nat.zero_mul]))
    have hordnd :
        (Select.sortStrings ((Select.groupByMake makeOf pool).1.map Prod.fst)).Nodup :=
      hperm.nodup_iff.mpr hknd
    have hordlen :
        (Select.sortStrings ((Select.groupByMake makeOf pool).1.map Prod.fst)).length =
        (Select.groupByMake makeOf pool).1.length := by
      rw [hperm.length_eq, List.length_map]
    have hbuck : ∀ m ∈ Select.sortStrings
        ((Select.groupByMake makeOf pool).1.map Prod.fst),
        cap - 0 ≤ (Select.gLook (Select.groupByMake makeOf pool).1 m).length := by
      intro m hm
      obtain ⟨v, hv, hmem⟩ := alookup_mem_keys _ m (hperm.mem_iff.mp hm)
      have hgl : Select.gLook (Select.groupByMake makeOf pool).1 m = v := by
        unfold Select.gLook
        rw [hv]
        rfl
      rw [hgl]
      simpa using hcap (m, v) hmem
    obtain ⟨hcnt, hlenf⟩ := selectLoop_reaches cap
      ((Select.groupByMake makeOf pool).1.length) hN
      (Select.sortStrings ((Select.groupByMake makeOf pool).1.map Prod.fst))
      hordlen hordnd cap 0
      ((Select.groupByMake makeOf pool).1.length * cap + 1)
      ⟨(Select.groupByMake makeOf pool).1, fun _ => 0, []⟩
      (by omega) (by omega)
      (by
        have hle := Nat.le_mul_of_pos_left cap hN
        omega)
      (fun m _ => rfl) hbuck (by simp)
    have hnlt : ¬ ((Select.selectLoop
        ((Select.groupByMake makeOf pool).1.length * cap) cap
        (Select.sortStrings ((Select.groupByMake makeOf pool).1.map Prod.fst))
        ((Select.groupByMake makeOf pool).1.length * cap + 1)
        ⟨(Select.groupByMake makeOf pool).1, fun _ => 0, []⟩).selected.length <
        (Select.groupByMake makeOf pool).1.length * cap) := by
      rw [hlenf]
      exact lt_irrefl _
    constructor
    · intro m hm
      have hc := hcnt m (hperm.mem_iff.mpr hm)
      simp only [Select.select_candidates_by_make]
      rw [if_neg hzero, if_neg hnlt]
      exact hc
    · simp only [Select.select_candidates_by_make]
      rw [if_neg hzero, if_neg hnlt]
      rw [if_neg (fun hcond => hnlt (And.left hcond))]
      exact hlenf

/-- Witness for C5: a pool of two makes with two candidates each,
`per_make_cap = 2`, `target_count = 4`: exactly two selected per make. -/
theorem selector_balanced_witness :
    (Select.select_candidates_by_make
        (fun u => if u = "u1" ∨ u = "u2" then some "A"
          else if u = "u3" ∨ u = "u4" then some "B" else none)
        [⟨"e1", "u1", 0⟩, ⟨"e2", "u2", 0⟩, ⟨"e3", "u3", 0⟩, ⟨"e4", "u4", 0⟩]
        4 2).2 "A" = 2 ∧
    (Select.select_candidates_by_make
        (fun u => if u = "u1" ∨ u = "u2" then some "A"
          else if u = "u3" ∨ u = "u4" then some "B" else none)
        [⟨"e1", "u1", 0⟩, ⟨"e2", "u2", 0⟩, ⟨"e3", "u3", 0⟩, ⟨"e4", "u4", 0⟩]
        4 2).2 "B" = 2 ∧
    (Select.select_candidates_by_make
        (fun u => if u = "u1" ∨ u = "u2" then some "A"
          else if u = "u3" ∨ u = "u4" then some "B" else none)
        [⟨"e1", "u1", 0⟩, ⟨"e2", "u2", 0⟩, ⟨"e3", "u3", 0⟩, ⟨"e4", "u4", 0⟩]
        4 2).1.length = 4 := by
  have h := selector_balanced
    (fun u => if u = "u1" ∨ u = "u2" then some "A"
      else if u = "u3" ∨ u = "u4" then some "B" else none)
    [⟨"e1", "u1", 0⟩, ⟨"e2", "u2", 0⟩, ⟨"e3", "u3", 0⟩, ⟨"e4", "u4", 0⟩]
    2 (by decide)
  exact ⟨h.1 "A" (by decide), h.1 "B" (by decide), h.2⟩

end CarResearch
